import Mathlib

/-! TabberNeue: the client-side tab widget (`ext.tabberNeue.js`)

A shallow embedding of `modules/ext.tabberNeue/ext.tabberNeue.js`.

* DOM elements are attribute maps; an element is identified by its position in
  the document (`Ref`), which is what `===` compares in the script.
* `window.requestAnimationFrame` callbacks are data (`Frame`) kept in a FIFO
  queue and run later; `setTimeout` callbacks are data (`Timer`).
* A JavaScript `TypeError` (property access on `null`/`undefined`) is an
  `Except` error.
* Pixel quantities are rationals; `Math.min`/`Math.max` are `min`/`max`.
* `Hash.js`, `Util.js` and `config.json` are not part of the embedded file:
  the helpers the script calls are parameters (`Hash`, `Util`, `Config`).
* The state holds attributes, class lists, the scroll position of the strip,
  listeners, the URL fragment and the calls of `scrollIntoView`. The styles
  `animateIndicator` and `setActiveTabpanel` write, the lazy content loader
  and the shared resize observer (`attachEvents`, `handleElementResize`) are
  not part of it.
* A widget is a header followed by a section; nested widgets and ids carried
  by the content of a panel are not modelled.
-/

namespace TabberNeue

/-! ## Configuration and external helpers -/

/-- The fields of `config.json` the script reads. -/
structure Config where
  enableAnimation : Bool
  updateLocationOnTabChange : Bool
  parseTabName : Bool
deriving DecidableEq

/-- The interface of `Hash.js` as the script uses it: `Hash.init()`,
`Hash.build( text )` and `Hash.exists( hash )`, over a helper state `σ`. -/
structure Hash (σ : Type) where
  init : σ → σ
  build : σ → String → String × σ
  existsHash : σ → String → Bool

/-- The pure helpers of `Util.js` the script calls. -/
structure Util where
  roundScrollLeft : ℚ → ℚ
  extractTextFromHtml : String → String

/-- A thrown JavaScript error. -/
inductive Err where
  | typeError
deriving DecidableEq

/-! ## Elements and the document -/

/-- Attributes of an element, in insertion order. -/
abbrev Attrs := List (String × String)

/-- `Element.getAttribute( name )`. -/
def getAttr (name : String) : Attrs → Option String
  | [] => none
  | (n, v) :: rest => if n = name then some v else getAttr name rest

/-- `Element.setAttribute( name, value )`. -/
def setAttr (name value : String) : Attrs → Attrs
  | [] => [(name, value)]
  | (n, v) :: rest =>
    if n = name then (name, value) :: rest else (n, v) :: setAttr name value rest

/-- What an element shows: nothing yet, markup assigned through `innerHTML`,
or text assigned through `textContent`. -/
inductive Content where
  | empty
  | html (s : String)
  | text (s : String)
deriving DecidableEq

/-- An element: its attributes and its content. -/
structure Element where
  attrs : Attrs
  content : Content
deriving DecidableEq

/-- A child node of a tab strip (`nav.tabber__tabs`): a tab anchor, or a text
node. -/
inductive StripNode where
  | tab (e : Element)
  | text (data : String)
deriving DecidableEq

/-- Geometry of a tab strip as the script reads it. -/
structure Tablist where
  scrollLeft : ℚ
  scrollWidth : ℚ
  offsetWidth : ℚ
deriving DecidableEq

/-- A widget container (`.tabber`): its class list, the class list of its
header, the child nodes of the tab strips in its header (none before the
widget is built), the geometry of its tab strip, and the panels
(`.tabber__panel`) of its section, in document order.  The header wrapper
precedes the section wrapper. -/
structure Tabber where
  classes : List String
  headerClasses : List String
  strip : List StripNode
  tablist : Tablist
  panels : List Element
deriving DecidableEq

/-- A top-level piece of the document: an element outside every widget, or a
widget. -/
inductive Item where
  | other (e : Element)
  | tabber (t : Tabber)
deriving DecidableEq

/-- The document, in document order. -/
abbrev Document := List Item

/-- The identity of an element: item `k` itself, child `c` of the tab strip of
widget `w`, or panel `j` of widget `w`. -/
inductive Ref where
  | other (k : Nat)
  | tab (w c : Nat)
  | panel (w j : Nat)
deriving DecidableEq

/-- Apply `f` to the entry at a position, if there is one. -/
def modifyAt {α : Type} (f : α → α) : Nat → List α → List α
  | _, [] => []
  | 0, x :: xs => f x :: xs
  | n + 1, x :: xs => x :: modifyAt f n xs

/-- The tab anchors of a strip whose first child has index `c`, with their
identities, in order (`querySelectorAll( '.tabber__tab' )`). -/
def stripElems (w : Nat) : Nat → List StripNode → List (Ref × Element)
  | _, [] => []
  | c, .tab e :: rest => (Ref.tab w c, e) :: stripElems w (c + 1) rest
  | c, .text _ :: rest => stripElems w (c + 1) rest

/-- The panels of a section whose first panel has index `j`, with their
identities, in order (`querySelectorAll( '.tabber__panel' )`). -/
def panelElems (w : Nat) : Nat → List Element → List (Ref × Element)
  | _, [] => []
  | j, e :: rest => (Ref.panel w j, e) :: panelElems w (j + 1) rest

/-- Every element of the document with its identity, in document order; the
first item has index `k`. -/
def itemElems : Nat → List Item → List (Ref × Element)
  | _, [] => []
  | k, .other e :: rest => (Ref.other k, e) :: itemElems (k + 1) rest
  | k, .tabber t :: rest =>
    stripElems k 0 t.strip ++ (panelElems k 0 t.panels ++ itemElems (k + 1) rest)

/-- `document.getElementById( id )`: the first element in document order whose
`id` attribute is `id`; no element has the empty string as its ID. -/
def getElementById (d : Document) (id : String) : Option Ref :=
  if id = "" then none
  else ((itemElems 0 d).find? (fun p => getAttr "id" p.2.attrs = some id)).map Prod.fst

/-- The element a reference denotes. -/
def elementAt (d : Document) : Ref → Option Element
  | .other k =>
    match d[k]? with
    | some (.other e) => some e
    | _ => none
  | .tab w c =>
    match d[w]? with
    | some (.tabber t) =>
      match t.strip[c]? with
      | some (.tab e) => some e
      | _ => none
    | _ => none
  | .panel w j =>
    match d[w]? with
    | some (.tabber t) => t.panels[j]?
    | _ => none

/-- `element.getAttribute( name )` through a reference. -/
def attrOf (d : Document) (r : Ref) (name : String) : Option String :=
  (elementAt d r).bind (fun e => getAttr name e.attrs)

/-- Rewrite a strip child if it is a tab anchor. -/
def StripNode.mapTab (f : Element → Element) : StripNode → StripNode
  | .tab e => .tab (f e)
  | .text s => .text s

/-- Rewrite an item if it lies outside every widget. -/
def Item.mapOther (f : Element → Element) : Item → Item
  | .other e => .other (f e)
  | .tabber t => .tabber t

/-- Rewrite an item if it is a widget. -/
def Item.mapTabber (f : Tabber → Tabber) : Item → Item
  | .other e => .other e
  | .tabber t => .tabber (f t)

/-- Rewrite the element a reference denotes. -/
def modifyElement (f : Element → Element) (d : Document) : Ref → Document
  | .other k => modifyAt (Item.mapOther f) k d
  | .tab w c =>
    modifyAt (Item.mapTabber fun t =>
      { t with strip := modifyAt (StripNode.mapTab f) c t.strip }) w d
  | .panel w j =>
    modifyAt (Item.mapTabber fun t => { t with panels := modifyAt f j t.panels }) w d

/-- `element.setAttribute( name, value )` on an element. -/
def Element.setAttribute (name value : String) (e : Element) : Element :=
  { e with attrs := setAttr name value e.attrs }

/-- Modelled from the spec: `Util.setAttributes( element, attributes )` of
`Util.js`, the helper "writing attribute batches": it calls `setAttribute` for
each entry of the bag, in order. -/
def setAttributes (attributes : Attrs) (e : Element) : Element :=
  { e with attrs := attributes.foldl (fun a kv => setAttr kv.1 kv.2 a) e.attrs }

/-- `element.closest( '.tabber' )`: the widget a tab or a panel lies in;
elements modelled as `Item.other` lie outside every widget. -/
def closestTabber (d : Document) : Ref → Option (Nat × Tabber)
  | .other _ => none
  | .tab w _ =>
    match d[w]? with
    | some (.tabber t) => some (w, t)
    | _ => none
  | .panel w _ =>
    match d[w]? with
    | some (.tabber t) => some (w, t)
    | _ => none

/-! ## `classList` -/

/-- `classList.remove( c )`. -/
def classRemove (c : String) (classes : List String) : List String :=
  classes.filter (fun x => x ≠ c)

/-- `classList.add( c )`. -/
def classAdd (c : String) (classes : List String) : List String :=
  if c ∈ classes then classes else classes ++ [c]

/-- `classList.toggle( c, force )`. -/
def classToggle (c : String) (force : Bool) (classes : List String) : List String :=
  if force then classAdd c classes else classRemove c classes

/-! ## Deferred callbacks and the page state -/

/-- An entry of the update lists `setActiveTab` collects: an element and the
attribute bag to write on it. -/
structure Update where
  element : Ref
  attributes : Attrs
deriving DecidableEq

/-- A callback handed to `window.requestAnimationFrame`, with the values it
captured. -/
inductive Frame where
  /-- The callback of `setActiveTab` (lines 206-215). -/
  | activeTab (tabpanelVisibilityUpdates tabStateUpdates : List Update)
      (activeTab activeTabpanel : Ref)
  /-- The callback of `updateHeaderOverflow` for a strip that does not scroll. -/
  | overflowRemove (w : Nat)
  /-- The callback of `updateHeaderOverflow` for a strip that scrolls, with
  `isAtStart || isAtMiddle` and `isAtEnd || isAtMiddle`. -/
  | overflowToggle (w : Nat) (next prev : Bool)
  /-- The callback of `scrollTablist`, with the captured `scrollLeft`. -/
  | scrollTablist (w : Nat) (scrollLeft : ℚ)
  /-- The callback of `load` that scrolls the panel of the URL fragment into
  view. -/
  | scrollIntoView (activeTabpanel : Option Ref)
  /-- The callback of `toggleAnimation`. -/
  | toggleAnimation (enableAnimations : Bool)
deriving DecidableEq

/-- A callback handed to `setTimeout`. -/
inductive Timer where
  /-- The 10 ms callback of `TabberBuilder.init` for widget `w`, whose new
  strip holds the `len` child nodes from index `base` on. -/
  | startEvents (w base len : Nat)
  /-- The trailing call of the debounced `updateHeaderOverflow` (250 ms). -/
  | overflow (w : Nat)
  /-- The 250 ms callback of `load`. -/
  | toggleAnimation (enableAnimations : Bool)
deriving DecidableEq

/-- An attached event listener: target, event type, handler. -/
structure Listener where
  target : String
  type : String
  handler : String
deriving DecidableEq

/-- The state of a `TabberEvent` instance. -/
structure TabberEvent where
  tabber : Nat
  tabs : List Ref
  activeTab : Option Ref
  tabFocus : Int
  listeners : List Listener
  overflowObservers : Nat
deriving DecidableEq

/-- What the script runs against: configuration, helpers and media queries. -/
structure Env (σ : Type) where
  config : Config
  hash : Hash σ
  util : Util
  reducedMotion : Bool
  hover : Bool
  resizeObserver : Bool

/-- The mutable state of the page. `fragment` is the URL fragment,
`animationsReady` the class `tabber-animations-ready` of the document element,
`scrolledIntoView` the elements `scrollIntoView` was called on, `focused` the
element `focus()` was last called on, `uncaught` the
errors thrown inside deferred callbacks. -/
structure World (σ : Type) where
  doc : Document
  hash : σ
  frames : List Frame
  timers : List Timer
  events : List TabberEvent
  errorLog : List String
  fragment : String
  animationsReady : Bool
  scrolledIntoView : List Ref
  focused : Option Ref
  uncaught : List Err

/-- `window.location.hash`: empty when the URL has no fragment, else the
fragment with its leading `#`. -/
def locationHash (fragment : String) : String :=
  if fragment = "" then "" else "#" ++ fragment

/-- Write the attribute bags of an update list, in order. -/
def applyUpdates (d : Document) (us : List Update) : Document :=
  us.foldl (fun d u => modifyElement (setAttributes u.attributes) d u.element) d

/-- The header after the callback of `updateHeaderOverflow` for a strip that
does not scroll (lines 68-69). -/
def Tabber.removeOverflow (t : Tabber) : Tabber :=
  let c := classRemove "tabber__header--next-visible" t.headerClasses
  { t with headerClasses := classRemove "tabber__header--prev-visible" c }

/-- The header after the callback of `updateHeaderOverflow` for a strip that
scrolls (lines 80-87). -/
def Tabber.toggleOverflow (next prev : Bool) (t : Tabber) : Tabber :=
  let c := classToggle "tabber__header--next-visible" next t.headerClasses
  { t with headerClasses := classToggle "tabber__header--prev-visible" prev c }

/-- The strip after the callback of `scrollTablist` (lines 228-231): the
assignment to `tablist.scrollLeft`. -/
def Tabber.scrollTo (scrollLeft : ℚ) (t : Tabber) : Tabber :=
  let target := min (max scrollLeft 0) (t.tablist.scrollWidth - t.tablist.offsetWidth)
  { t with tablist := { t.tablist with scrollLeft := target } }

/-- Run one animation-frame callback. The indicator and section styles that
`animateIndicator` and `setActiveTabpanel` write are not part of the state. -/
def runFrame {σ : Type} (W : World σ) : Frame → World σ
  | .activeTab tabpanelVisibilityUpdates tabStateUpdates _ _ =>
    { W with doc := applyUpdates (applyUpdates W.doc tabpanelVisibilityUpdates) tabStateUpdates }
  | .overflowRemove w =>
    { W with doc := modifyAt (Item.mapTabber Tabber.removeOverflow) w W.doc }
  | .overflowToggle w next prev =>
    { W with doc := modifyAt (Item.mapTabber (Tabber.toggleOverflow next prev)) w W.doc }
  | .scrollTablist w scrollLeft =>
    { W with doc := modifyAt (Item.mapTabber (Tabber.scrollTo scrollLeft)) w W.doc }
  | .scrollIntoView none => { W with uncaught := W.uncaught ++ [Err.typeError] }
  | .scrollIntoView (some activeTabpanel) =>
    { W with scrolledIntoView := W.scrolledIntoView ++ [activeTabpanel] }
  | .toggleAnimation enableAnimations => { W with animationsReady := enableAnimations }

/-- Run the pending animation-frame callbacks, oldest first. -/
def runFrames {σ : Type} (W : World σ) : World σ :=
  W.frames.foldl runFrame { W with frames := [] }

/-! ## `TabberAction` -/

/-- `TabberAction.shouldShowAnimation()`; `reducedMotion` is
`window.matchMedia( '(prefers-reduced-motion: reduce)' ).matches`. -/
def TabberAction.shouldShowAnimation (reducedMotion : Bool) (config : Config) : Bool :=
  !reducedMotion || !config.enableAnimation

/-- `TabberAction.toggleAnimation( enableAnimations )`: the callbacks it hands
to `requestAnimationFrame`. -/
def TabberAction.toggleAnimation (reducedMotion : Bool) (config : Config)
    (enableAnimations : Bool) : List Frame :=
  if !TabberAction.shouldShowAnimation reducedMotion config then []
  else [Frame.toggleAnimation enableAnimations]

/-- `TabberAction.updateHeaderOverflow( tabberEl )`: the callback it hands to
`requestAnimationFrame`. -/
def TabberAction.updateHeaderOverflow (util : Util) (w : Nat) (tabberEl : Tabber) : Frame :=
  let tablistWidth := tabberEl.tablist.offsetWidth
  let tablistScrollWidth := tabberEl.tablist.scrollWidth
  let isScrollable := decide (tablistScrollWidth > tablistWidth)
  if !isScrollable then Frame.overflowRemove w
  else
    let scrollLeft := util.roundScrollLeft tabberEl.tablist.scrollLeft
    let isAtStart := decide (scrollLeft ≤ 0)
    let isAtEnd := decide (scrollLeft + tablistWidth ≥ tablistScrollWidth)
    let isAtMiddle := !isAtStart && !isAtEnd
    Frame.overflowToggle w (isAtStart || isAtMiddle) (isAtEnd || isAtMiddle)

/-- `TabberAction.setActiveTab( activeTab )` up to its
`requestAnimationFrame` call: the callback it hands over, or the `TypeError`
of a property access on `null`. An absent `aria-controls` reaches
`getElementById` as the string `null`. -/
def TabberAction.setActiveTab (d : Document) (activeTab : Option Ref) : Except Err Frame :=
  match activeTab with
  | none => .error Err.typeError
  | some tab =>
    match getElementById d ((attrOf d tab "aria-controls").getD "null") with
    | none => .error Err.typeError
    | some activeTabpanel =>
      match closestTabber d activeTabpanel with
      | none => .error Err.typeError
      | some (w, tabberEl) =>
        let tabpanels := (panelElems w 0 tabberEl.panels).map Prod.fst
        let tabs := (stripElems w 0 tabberEl.strip).map Prod.fst
        let tabpanelVisibilityUpdates := tabpanels.map fun tabpanel =>
          if tabpanel = activeTabpanel then
            Update.mk tabpanel [("aria-hidden", "false")]
          else
            Update.mk tabpanel [("aria-hidden", "true")]
        let tabStateUpdates := tabs.map fun t =>
          if t = tab then
            Update.mk t [("aria-selected", "true"), ("tabindex", "0")]
          else
            Update.mk t [("aria-selected", "false"), ("tabindex", "-1")]
        .ok (Frame.activeTab tabpanelVisibilityUpdates tabStateUpdates tab activeTabpanel)

/-- `TabberAction.scrollTablist( offset, tablist )`: the callback it hands to
`requestAnimationFrame`, which captured `scrollLeft`. -/
def TabberAction.scrollTablist (util : Util) (offset : ℚ) (w : Nat) (tablist : Tablist) : Frame :=
  let scrollLeft := util.roundScrollLeft tablist.scrollLeft + offset
  Frame.scrollTablist w scrollLeft

/-- `TabberAction.handleHeaderButton( button, type )` for the strip of
widget `w`. -/
def TabberAction.handleHeaderButton (util : Util) (w : Nat) (tablist : Tablist)
    (type : String) : Frame :=
  let tablistWidth := tablist.offsetWidth
  let scrollOffset := if type = "prev" then -tablistWidth / 2 else tablistWidth / 2
  TabberAction.scrollTablist util scrollOffset w tablist

/-! ## `TabberEvent` -/

/-- The click target as `onHeaderClick` tells it apart with `closest`. -/
inductive ClickTarget where
  | tab (tab : Ref)
  | prevButton
  | nextButton
  | elsewhere
deriving DecidableEq

/-- An event a listener of the controller can receive. -/
inductive DomEvent where
  | click (target : ClickTarget)
  | scroll
  | keydown (key : String)
deriving DecidableEq

/-- The entry of a `NodeList` at a JavaScript number index. -/
def nodeAt (nodes : List Ref) (i : Int) : Option Ref :=
  if 0 ≤ i then nodes[i.toNat]? else none

/-- `new TabberEvent( tabber, tablist )` for the strip of widget `w` that holds
the `len` child nodes from index `base` on. -/
def TabberEvent.new (d : Document) (w base len : Nat) : TabberEvent :=
  let children :=
    match d[w]? with
    | some (.tabber t) => (t.strip.drop base).take len
    | _ => []
  let tabs := stripElems w base children
  { tabber := w
    tabs := tabs.map Prod.fst
    activeTab := (tabs.find? fun p => getAttr "aria-selected" p.2.attrs = some "true").map Prod.fst
    tabFocus := 0
    listeners := []
    overflowObservers := 0 }

/-- The focus index after an arrow key (lines 322-326); `%` is the truncating
remainder of JavaScript. -/
def TabberEvent.nextFocus (arrowDirection : String) (tabFocus length : Int) : Int :=
  if arrowDirection = "right" then (tabFocus + 1).tmod length
  else if arrowDirection = "left" then (tabFocus - 1 + length).tmod length
  else tabFocus

/-- `TabberEvent.handleTabFocusChange( arrowDirection )`: the document, the
controller and the tab that received `focus()`, or the `TypeError` of
`setAttribute` on `undefined`. -/
def TabberEvent.handleTabFocusChange (d : Document) (ev : TabberEvent)
    (arrowDirection : String) : Except Err (Document × TabberEvent × Ref) :=
  match nodeAt ev.tabs ev.tabFocus with
  | none => .error Err.typeError
  | some old =>
    let d1 := modifyElement (Element.setAttribute "tabindex" "-1") d old
    let tabFocus := TabberEvent.nextFocus arrowDirection ev.tabFocus ev.tabs.length
    match nodeAt ev.tabs tabFocus with
    | none => .error Err.typeError
    | some tab =>
      .ok (modifyElement (Element.setAttribute "tabindex" "0") d1 tab,
        { ev with tabFocus := tabFocus }, tab)

/-- The `id` property of an element: its `id` attribute, or the empty string. -/
def idOf (d : Document) (r : Ref) : String :=
  (attrOf d r "id").getD ""

/-- `TabberEvent.onHeaderClick( e )` of controller `i`; an error thrown by the
handler is uncaught and leaves what was written before it. -/
def TabberEvent.onHeaderClick {σ : Type} (env : Env σ) (W : World σ) (i : Nat)
    (target : ClickTarget) : World σ :=
  match W.events[i]? with
  | none => W
  | some ev =>
    match target with
    | .tab tab =>
      let W1 := { W with events := W.events.set i { ev with activeTab := some tab } }
      let W2 := if env.config.updateLocationOnTabChange then
        { W1 with fragment := idOf W.doc tab } else W1
      match TabberAction.setActiveTab W2.doc (some tab) with
      | .error e => { W2 with uncaught := W2.uncaught ++ [e] }
      | .ok f => { W2 with frames := W2.frames ++ [f] }
    | .prevButton =>
      match env.hover, W.doc[ev.tabber]? with
      | true, some (.tabber t) =>
        { W with frames :=
          W.frames ++ [TabberAction.handleHeaderButton env.util ev.tabber t.tablist "prev"] }
      | _, _ => W
    | .nextButton =>
      match env.hover, W.doc[ev.tabber]? with
      | true, some (.tabber t) =>
        { W with frames :=
          W.frames ++ [TabberAction.handleHeaderButton env.util ev.tabber t.tablist "next"] }
      | _, _ => W
    | .elsewhere => W

/-- `TabberEvent.onTablistScroll()`: the debounced `updateHeaderOverflow`, a
single pending trailing call. -/
def TabberEvent.onTablistScroll {σ : Type} (W : World σ) (i : Nat) : World σ :=
  match W.events[i]? with
  | none => W
  | some ev =>
    { W with timers := W.timers.filter (fun t => t ≠ Timer.overflow ev.tabber)
        ++ [Timer.overflow ev.tabber] }

/-- `TabberEvent.onTablistKeydown( e )` of controller `i`. -/
def TabberEvent.onTablistKeydown {σ : Type} (W : World σ) (i : Nat) (key : String) : World σ :=
  match W.events[i]? with
  | none => W
  | some ev =>
    let arrowDirection :=
      if key = "ArrowRight" then some "right"
      else if key = "ArrowLeft" then some "left"
      else none
    match arrowDirection with
    | none => W
    | some dir =>
      match TabberEvent.handleTabFocusChange W.doc ev dir with
      | .error e => { W with uncaught := W.uncaught ++ [e] }
      | .ok (d, ev1, tab) =>
        { W with doc := d, events := W.events.set i ev1, focused := some tab }

/-- The three listeners `resume` attaches and `pause` detaches. -/
def TabberEvent.handlers : List Listener :=
  [ { target := "header", type := "click", handler := "onHeaderClick" },
    { target := "tablist", type := "scroll", handler := "onTablistScroll" },
    { target := "tablist", type := "keydown", handler := "onTablistKeydown" } ]

/-- `addEventListener`: a listener that is already attached is not added
again. -/
def addEventListener (l : Listener) (ls : List Listener) : List Listener :=
  if l ∈ ls then ls else ls ++ [l]

/-- `removeEventListener`. -/
def removeEventListener (l : Listener) (ls : List Listener) : List Listener :=
  ls.filter (fun x => x ≠ l)

/-- `TabberEvent.resume()`. -/
def TabberEvent.resume {σ : Type} (env : Env σ) (ev : TabberEvent) : TabberEvent :=
  { ev with
    listeners := TabberEvent.handlers.foldl (fun ls l => addEventListener l ls) ev.listeners
    overflowObservers := if env.resizeObserver then ev.overflowObservers + 1
      else ev.overflowObservers }

/-- `TabberEvent.pause()`. -/
def TabberEvent.pause (ev : TabberEvent) : TabberEvent :=
  { ev with
    listeners := TabberEvent.handlers.foldl (fun ls l => removeEventListener l ls) ev.listeners }

/-- `TabberEvent.init()`: the intersection observer is created and `resume`
is called. -/
def TabberEvent.init {σ : Type} (env : Env σ) (ev : TabberEvent) : TabberEvent :=
  TabberEvent.resume env ev

/-- The callback of the intersection observer for one entry. -/
def TabberEvent.onIntersection {σ : Type} (env : Env σ) (isIntersecting : Bool)
    (ev : TabberEvent) : TabberEvent :=
  if isIntersecting then TabberEvent.resume env ev else TabberEvent.pause ev

/-- A call the visibility observer (or `init`) makes on a controller. -/
inductive LifecycleCall where
  | resume
  | pause
deriving DecidableEq

/-- Make one `resume()` or `pause()` call. -/
def TabberEvent.call {σ : Type} (env : Env σ) (ev : TabberEvent) : LifecycleCall → TabberEvent
  | .resume => TabberEvent.resume env ev
  | .pause => TabberEvent.pause ev

/-- Make a sequence of `resume()` and `pause()` calls, in order. -/
def TabberEvent.calls {σ : Type} (env : Env σ) (ev : TabberEvent) (cs : List LifecycleCall) :
    TabberEvent :=
  cs.foldl (TabberEvent.call env) ev

/-- The callback of the intersection observer (lines 427-435): the `forEach`
over its entries, each given by its `isIntersecting`. -/
def TabberEvent.observerCallback {σ : Type} (env : Env σ) (entries : List Bool)
    (ev : TabberEvent) : TabberEvent :=
  entries.foldl (fun ev isIntersecting => TabberEvent.onIntersection env isIntersecting ev) ev

/-- The fragment a same-page link leads to: its `href` without the leading
`#`. -/
def fragmentOfHref (href : String) : Option String :=
  match href.data with
  | '#' :: rest => some (String.mk rest)
  | _ => none

/-- What the browser does with an event whose default nobody prevented: a
click on a tab, an anchor with `href='#id'`, navigates to that fragment; the
scroll that comes with the navigation is not part of the state. -/
def defaultAction {σ : Type} (W : World σ) : DomEvent → World σ
  | .click (.tab tab) =>
    match (attrOf W.doc tab "href").bind fragmentOfHref with
    | some fragment => { W with fragment := fragment }
    | none => W
  | _ => W

/-- Deliver an event to controller `i`: the handler runs if its listener is
attached (`onHeaderClick` prevents the default of a click on a tab), else the
default action takes place. -/
def TabberEvent.dispatch {σ : Type} (env : Env σ) (W : World σ) (i : Nat) :
    DomEvent → World σ
  | .click target =>
    match W.events[i]? with
    | none => defaultAction W (DomEvent.click target)
    | some ev =>
      if { target := "header", type := "click", handler := "onHeaderClick" } ∈ ev.listeners
      then TabberEvent.onHeaderClick env W i target
      else defaultAction W (DomEvent.click target)
  | .scroll =>
    match W.events[i]? with
    | none => W
    | some ev =>
      if { target := "tablist", type := "scroll", handler := "onTablistScroll" } ∈ ev.listeners
      then TabberEvent.onTablistScroll W i else W
  | .keydown key =>
    match W.events[i]? with
    | none => W
    | some ev =>
      if { target := "tablist", type := "keydown", handler := "onTablistKeydown" } ∈ ev.listeners
      then TabberEvent.onTablistKeydown W i key else W

/-! ## `TabberBuilder` -/

/-- `TabberBuilder.setTabAttributes( tab, tabId )`. -/
def TabberBuilder.setTabAttributes (tab : Element) (tabId : String) : Element :=
  setAttributes
    [ ("class", "tabber__tab"), ("role", "tab"), ("aria-selected", "false"),
      ("aria-controls", tabId), ("href", "#" ++ tabId), ("id", "tab-" ++ tabId) ] tab

/-- `TabberBuilder.createTab( titleAttr, tabId )`. -/
def TabberBuilder.createTab (config : Config) (titleAttr tabId : String) : Element :=
  let tab : Element :=
    if config.parseTabName then { attrs := [], content := Content.html titleAttr }
    else { attrs := [], content := Content.text titleAttr }
  TabberBuilder.setTabAttributes tab tabId

/-- `TabberBuilder.setTabpanelAttributes( tabpanel, tabId )`. -/
def TabberBuilder.setTabpanelAttributes (tabpanel : Element) (tabId : String) : Element :=
  setAttributes
    [ ("role", "tabpanel"), ("aria-labelledby", "tab-" ++ tabId), ("id", tabId) ] tabpanel

/-- The message `createTabElement` logs. -/
def TabberBuilder.missingTitle : String :=
  "[TabberNeue] Missing or malformed `data-mw-tabber-title` attribute"

/-- What `createTabElement` leaves behind: its return value (`none` is
`false`), the panel, the state of the hash helper, and what it logged. -/
structure Created (σ : Type) where
  result : Option Element
  tabpanel : Element
  hash : σ
  log : List String

/-- `TabberBuilder.createTabElement( tabpanel )`. -/
def TabberBuilder.createTabElement {σ : Type} (env : Env σ) (s : σ) (tabpanel : Element) :
    Created σ :=
  match getAttr "data-mw-tabber-title" tabpanel.attrs with
  | none => ⟨none, tabpanel, s, [TabberBuilder.missingTitle]⟩
  | some titleAttr =>
    if titleAttr = "" then ⟨none, tabpanel, s, [TabberBuilder.missingTitle]⟩
    else
      let built :=
        if env.config.parseTabName then env.hash.build s (env.util.extractTextFromHtml titleAttr)
        else env.hash.build s titleAttr
      ⟨some (TabberBuilder.createTab env.config titleAttr built.1),
        TabberBuilder.setTabpanelAttributes tabpanel built.1, built.2, []⟩

/-- `ParentNode.append( x )` for the value `createTabElement` returned: a node
is inserted as it is, any other value as a text node of its string
conversion, which for `false` is the text `false`. -/
def appendArg : Option Element → StripNode
  | some tab => StripNode.tab tab
  | none => StripNode.text "false"

/-- What `createTabs` leaves behind: the child nodes of the new strip, the
panels, the state of the hash helper, and what was logged. -/
structure Strip (σ : Type) where
  children : List StripNode
  panels : List Element
  hash : σ
  log : List String

/-- `TabberBuilder.createTabs()`: the `forEach` over the panels, each result
appended to the fragment that becomes the content of the strip. -/
def TabberBuilder.createTabs {σ : Type} (env : Env σ) : σ → List Element → Strip σ
  | s, [] => ⟨[], [], s, []⟩
  | s, tabpanel :: rest =>
    let c := TabberBuilder.createTabElement env s tabpanel
    let r := TabberBuilder.createTabs env c.hash rest
    ⟨appendArg c.result :: r.children, c.tabpanel :: r.panels, r.hash, c.log ++ r.log⟩

/-- The widget once `createTabs`, `createHeader` and `createIndicator` ran: the
new strip is in the header, the panels carry their attributes. -/
def TabberBuilder.assemble {σ : Type} (env : Env σ) (s : σ) (t : Tabber) : Tabber :=
  let r := TabberBuilder.createTabs env s t.panels
  { t with strip := t.strip ++ r.children, panels := r.panels }

/-- The identifiers `createTabs` obtains from `Hash.build`, one for each panel
with a title, in order. -/
def TabberBuilder.tabIds {σ : Type} (env : Env σ) : σ → List Element → List String
  | _, [] => []
  | s, tabpanel :: rest =>
    match getAttr "data-mw-tabber-title" tabpanel.attrs with
    | none => TabberBuilder.tabIds env s rest
    | some titleAttr =>
      if titleAttr = "" then TabberBuilder.tabIds env s rest
      else
        let built :=
          if env.config.parseTabName then env.hash.build s (env.util.extractTextFromHtml titleAttr)
          else env.hash.build s titleAttr
        built.1 :: TabberBuilder.tabIds env built.2 rest

/-- The page once `createTabs`, `createHeader` and `createIndicator` ran on
widget `w`. -/
def TabberBuilder.built {σ : Type} (env : Env σ) (W : World σ) (w : Nat) (t : Tabber) : World σ :=
  let r := TabberBuilder.createTabs env W.hash t.panels
  { W with
    doc := W.doc.set w (Item.tabber (TabberBuilder.assemble env W.hash t))
    hash := r.hash
    errorLog := W.errorLog ++ r.log }

/-- The first tab of the new strip
(`this.tablist.querySelector( '.tabber__tab' )`). -/
def TabberBuilder.firstTab {σ : Type} (env : Env σ) (W : World σ) (w : Nat) (t : Tabber) :
    Option Ref :=
  let r := TabberBuilder.createTabs env W.hash t.panels
  (stripElems w t.strip.length r.children).head?.map Prod.fst

/-- `TabberBuilder.init()` for widget `w`, up to its return: the page after
it, or the error it throws together with the page at the throw. -/
def TabberBuilder.init {σ : Type} (env : Env σ) (W : World σ) (w : Nat) :
    Except (Err × World σ) (World σ) :=
  match W.doc[w]? with
  | some (.tabber t) =>
    let r := TabberBuilder.createTabs env W.hash t.panels
    let W1 := TabberBuilder.built env W w t
    match TabberAction.setActiveTab W1.doc (TabberBuilder.firstTab env W w t) with
    | .error e => .error (e, W1)
    | .ok f =>
      .ok { W1 with
        frames := W1.frames ++
          [f, TabberAction.updateHeaderOverflow env.util w (TabberBuilder.assemble env W.hash t)]
        timers := W1.timers ++ [Timer.startEvents w t.strip.length r.children.length] }
  | _ => .ok W

/-- Run one timer callback. -/
def runTimer {σ : Type} (env : Env σ) (W : World σ) : Timer → World σ
  | .startEvents w base len =>
    let tabberEvent := TabberEvent.init env (TabberEvent.new W.doc w base len)
    { W with
      events := W.events ++ [tabberEvent]
      doc := modifyAt (Item.mapTabber fun t =>
        { t with classes := classAdd "tabber--live" t.classes }) w W.doc }
  | .overflow w =>
    match W.doc[w]? with
    | some (.tabber t) =>
      { W with frames := W.frames ++ [TabberAction.updateHeaderOverflow env.util w t] }
    | _ => W
  | .toggleAnimation enableAnimations =>
    { W with frames := W.frames
        ++ TabberAction.toggleAnimation env.reducedMotion env.config enableAnimations }

/-- Run the pending timer callbacks, oldest first. -/
def runTimers {σ : Type} (env : Env σ) (W : World σ) : World σ :=
  W.timers.foldl (runTimer env) { W with timers := [] }

/-- Something that happens on the page once controllers exist: the
intersection observer of controller `i` reports entries, an event reaches
the header or strip of controller `i`, the pending animation-frame callbacks
run, or the pending timer callbacks run. -/
inductive PageStep where
  | intersection (i : Nat) (entries : List Bool)
  | event (i : Nat) (e : DomEvent)
  | frames
  | timers
deriving DecidableEq

/-- Take one step on the page. -/
def pageStep {σ : Type} (env : Env σ) (W : World σ) : PageStep → World σ
  | .intersection i entries =>
    match W.events[i]? with
    | none => W
    | some ev => { W with events := W.events.set i (TabberEvent.observerCallback env entries ev) }
  | .event i e => TabberEvent.dispatch env W i e
  | .frames => runFrames W
  | .timers => runTimers env W

/-- Take a sequence of steps, in order. -/
def pageRun {σ : Type} (env : Env σ) (W : World σ) (steps : List PageStep) : World σ :=
  steps.foldl (pageStep env) W

/-- The `isIntersecting` of the last entry a step carries for the observer of
controller `i`, if it carries one. -/
def stepEntry (i : Nat) : PageStep → Option Bool
  | .intersection k entries => if k = i then entries.getLast? else none
  | _ => none

/-- The `isIntersecting` of the last entry the observer of controller `i`
reported in a sequence of steps, if it reported any. -/
def lastEntry (i : Nat) : List PageStep → Option Bool
  | [] => none
  | step :: rest =>
    match lastEntry i rest with
    | some b => some b
    | none => stepEntry i step

/-! ## Bootstrap -/

/-- The `forEach` of `load` (lines 621-624): an error thrown by one `init`
ends it. -/
def buildAll {σ : Type} (env : Env σ) : World σ → List Nat → Except (Err × World σ) (World σ)
  | W, [] => .ok W
  | W, tabberEl :: rest =>
    match TabberBuilder.init env W tabberEl with
    | .error e => .error e
    | .ok W1 => buildAll env W1 rest

/-- `load( tabberEls )`, up to its return. -/
def load {σ : Type} (env : Env σ) (W : World σ) (tabberEls : List Nat) :
    Except (Err × World σ) (World σ) :=
  match buildAll env { W with hash := env.hash.init W.hash } tabberEls with
  | .error e => .error e
  | .ok W1 =>
    let urlHash := locationHash W1.fragment
    let activated : Except (Err × World σ) (World σ) :=
      if env.hash.existsHash W1.hash urlHash then
        let activeTab := getElementById W1.doc ("tab-" ++ urlHash)
        let activeTabpanel := getElementById W1.doc urlHash
        match TabberAction.setActiveTab W1.doc activeTab with
        | .error e => .error (e, W1)
        | .ok f => .ok { W1 with frames := W1.frames ++ [f, Frame.scrollIntoView activeTabpanel] }
      else .ok W1
    match activated with
    | .error e => .error e
    | .ok W2 => .ok { W2 with timers := W2.timers ++ [Timer.toggleAnimation true] }

/-- The widgets `document.querySelectorAll( '.tabber:not(.tabber--live)' )`
selects; the first item has index `k`. -/
def notLive : Nat → List Item → List Nat
  | _, [] => []
  | k, .other _ :: rest => notLive (k + 1) rest
  | k, .tabber t :: rest =>
    if "tabber--live" ∈ t.classes then notLive (k + 1) rest else k :: notLive (k + 1) rest

/-- `main()`. -/
def main {σ : Type} (env : Env σ) (W : World σ) : Except (Err × World σ) (World σ) :=
  let tabberEls := notLive 0 W.doc
  if tabberEls.length = 0 then .ok W else load env W tabberEls

/-! ## Observations -/

/-- The header classes of widget `w`. -/
def headerClassesOf (d : Document) (w : Nat) : Option (List String) :=
  match d[w]? with
  | some (.tabber t) => some t.headerClasses
  | _ => none

/-- The tabs of widget `w`, in order
(`querySelectorAll( ':scope > .tabber__header > .tabber__tabs > .tabber__tab' )`). -/
def tabsOf (d : Document) (w : Nat) : List Ref :=
  match d[w]? with
  | some (.tabber t) => (stripElems w 0 t.strip).map Prod.fst
  | _ => []

/-- The panels of widget `w`, in order
(`querySelectorAll( ':scope > .tabber__section > .tabber__panel' )`). -/
def panelsOf (d : Document) (w : Nat) : List Ref :=
  match d[w]? with
  | some (.tabber t) => (panelElems w 0 t.panels).map Prod.fst
  | _ => []

/-- The bag `setActiveTab` collects for a panel. -/
def panelUpdate (activeTabpanel tabpanel : Ref) : Update :=
  if tabpanel = activeTabpanel then Update.mk tabpanel [("aria-hidden", "false")]
  else Update.mk tabpanel [("aria-hidden", "true")]

/-- The bag `setActiveTab` collects for a tab. -/
def tabUpdate (activeTab tab : Ref) : Update :=
  if tab = activeTab then Update.mk tab [("aria-selected", "true"), ("tabindex", "0")]
  else Update.mk tab [("aria-selected", "false"), ("tabindex", "-1")]

/-- The non-empty `id` attributes of the document, in document order. -/
def documentIds (d : Document) : List String :=
  ((itemElems 0 d).filterMap fun p => getAttr "id" p.2.attrs).filter (fun s => s ≠ "")

/-- No element that precedes the element `r` in document order carries the
id. -/
def idFreeBefore (d : Document) (r : Ref) (id : String) : Bool :=
  ((itemElems 0 d).takeWhile (fun p => decide (p.1 ≠ r))).all
    (fun p => decide (getAttr "id" p.2.attrs ≠ some id))

/-- The scroll position of the tab strip of widget `w`. -/
def scrollLeftOf (d : Document) (w : Nat) : Option ℚ :=
  match d[w]? with
  | some (.tabber t) => some t.tablist.scrollLeft
  | _ => none

/-! ## Concrete pages -/

/-- Modelled from the spec: `Hash.js`, the anchor hash helper, "`build(text)
-> id` deterministic, collision-resistant within a page; `exists(fragment) ->
bool` validates a URL fragment corresponds to a known generated id; requires
an `init()` call once per page before use". The state is the list of the
generated ids; the id of a text is the text itself, so distinct texts get
distinct ids. -/
def specHash : Hash (List String) where
  init := fun _ => []
  build := fun known text => (text, known ++ [text])
  existsHash := fun known hash => decide (hash ∈ known)

/-- Helpers for the concrete pages: scroll positions are whole pixels, titles
are plain text. -/
def plainUtil : Util where
  roundScrollLeft := fun x => x
  extractTextFromHtml := fun s => s

/-- An environment: titles are plain text, a pointer device, no reduced-motion
preference. -/
def plainEnv : Env (List String) where
  config := { enableAnimation := true, updateLocationOnTabChange := false, parseTabName := false }
  hash := specHash
  util := plainUtil
  reducedMotion := false
  hover := true
  resizeObserver := true

/-- A rendered panel with a title. -/
def titled (title : String) : Element :=
  { attrs := [("class", "tabber__panel"), ("data-mw-tabber-title", title)], content := Content.empty }

/-- A rendered panel without a title. -/
def untitled : Element :=
  { attrs := [("class", "tabber__panel")], content := Content.empty }

/-- A rendered container that was not built yet. -/
def container (panels : List Element) : Tabber :=
  { classes := ["tabber"], headerClasses := ["tabber__header"], strip := [],
    tablist := { scrollLeft := 0, scrollWidth := 0, offsetWidth := 0 }, panels := panels }

/-- A freshly loaded page with a URL fragment. -/
def page (doc : Document) (fragment : String) : World (List String) :=
  { doc := doc, hash := [], frames := [], timers := [], events := [], errorLog := [],
    fragment := fragment, animationsReady := false, scrolledIntoView := [], focused := none,
    uncaught := [] }

/-- The page once the script returned and the pending animation-frame
callbacks ran; after a throw, the page at the throw. -/
def settle {σ : Type} : Except (Err × World σ) (World σ) → World σ
  | .ok W => runFrames W
  | .error (_, W) => W

/-- A page with one container of three panels titled `A`, `B`, `C`. -/
def abcPage : World (List String) :=
  page [Item.tabber (container [titled "A", titled "B", titled "C"])] ""

/-- The page `abcPage`, built by `load`. -/
def abcBuilt : World (List String) :=
  settle (load plainEnv abcPage [0])

/-- The error a run threw, if it threw. -/
def thrown {σ : Type} : Except (Err × World σ) (World σ) → Option Err
  | .ok _ => none
  | .error (e, _) => some e

/-- The built page `abcBuilt` after its timers ran (the controller is
attached), a click on the third tab, the animation frame, and a press of the
right arrow key. -/
def clickThenArrow : World (List String) :=
  TabberEvent.dispatch plainEnv
    (runFrames (TabberEvent.dispatch plainEnv (runTimers plainEnv abcBuilt) 0
      (DomEvent.click (ClickTarget.tab (Ref.tab 0 2)))))
    0 (DomEvent.keydown "ArrowRight")

/-- A page with two containers: the only panel of the first has no title, the
panel of the second is titled `A`. -/
def untitledFirst : World (List String) :=
  page [Item.tabber (container [untitled]), Item.tabber (container [titled "A"])] ""

/-- A page with one container of two panels titled `A` and `B`, opened with
the URL fragment `B`. -/
def fragmentB : World (List String) :=
  page [Item.tabber (container [titled "A", titled "B"])] "B"

/-- The helper `specHash` with an `exists` that also accepts a generated id
behind a leading `#`. -/
def lenientHash : Hash (List String) where
  init := fun _ => []
  build := fun known text => (text, known ++ [text])
  existsHash := fun known hash => decide (hash ∈ known ∨ hash ∈ known.map (fun k => "#" ++ k))

/-- The environment `plainEnv` with the helper `lenientHash`. -/
def lenientEnv : Env (List String) :=
  { plainEnv with hash := lenientHash }

/-- A page with one container of two panels titled `tab-A` and `A`, built by
`load`. -/
def collidingBuilt : World (List String) :=
  settle (load plainEnv (page [Item.tabber (container [titled "tab-A", titled "A"])] "") [0])

/-- A page with a heading whose id is `A`, followed by a container with one
panel titled `A`. -/
def headingPage : World (List String) :=
  page [Item.other { attrs := [("id", "A")], content := Content.text "A" },
    Item.tabber (container [titled "A"])] ""

/-- A page with one container of one panel titled `A`. -/
def singlePage : World (List String) :=
  page [Item.tabber (container [titled "A"])] ""

/-- The page `singlePage` after `main` ran twice, the second time before any
timer callback of the first run. -/
def scannedTwice : World (List String) :=
  settle (main plainEnv (settle (main plainEnv singlePage)))

/-- The page `singlePage` after `main` ran, the timer callbacks ran, and
`main` ran again. -/
def scannedAfterTimers : World (List String) :=
  settle (main plainEnv (runTimers plainEnv (settle (main plainEnv singlePage))))

/-- The built page `abcBuilt` after its timers ran: controller `0` is
attached. -/
def attachedPage : World (List String) :=
  runTimers plainEnv abcBuilt

/-- A click on the third tab, the animation frame, then the widget leaves the
viewport. -/
def leavingSteps : List PageStep :=
  [PageStep.event 0 (DomEvent.click (ClickTarget.tab (Ref.tab 0 2))), PageStep.frames,
    PageStep.intersection 0 [true, false]]

/-- A built strip with a one-pixel border on each side: nothing overflows, so
`scrollWidth` is the inner width and `offsetWidth` is two pixels more. -/
def borderedStrip : Tabber :=
  { classes := ["tabber", "tabber--live"], headerClasses := ["tabber__header"], strip := [],
    tablist := { scrollLeft := 0, scrollWidth := 300, offsetWidth := 302 }, panels := [] }

/-- A built strip that overflows, scrolled to the middle. -/
def wideStrip : Tabber :=
  { classes := ["tabber", "tabber--live"], headerClasses := ["tabber__header"], strip := [],
    tablist := { scrollLeft := 40, scrollWidth := 500, offsetWidth := 300 }, panels := [] }

/-! ## Lists and attributes -/

theorem getElem?_modifyAt {α : Type} (f : α → α) (n m : Nat) (l : List α) :
    (modifyAt f n l)[m]? = if n = m then l[m]?.map f else l[m]? := by
  induction l generalizing n m with
  | nil => cases n <;> simp [modifyAt]
  | cons x xs ih =>
    cases n with
    | zero => cases m <;> simp [modifyAt]
    | succ n =>
      cases m with
      | zero => simp [modifyAt]
      | succ m => simp [modifyAt, ih]

theorem length_modifyAt {α : Type} (f : α → α) (n : Nat) (l : List α) :
    (modifyAt f n l).length = l.length := by
  induction l generalizing n with
  | nil => cases n <;> simp [modifyAt]
  | cons x xs ih => cases n <;> simp [modifyAt, ih]

theorem mem_classRemove (c x : String) (cs : List String) :
    x ∈ classRemove c cs ↔ x ∈ cs ∧ x ≠ c := by
  simp [classRemove]

theorem mem_classAdd (c x : String) (cs : List String) :
    x ∈ classAdd c cs ↔ x ∈ cs ∨ x = c := by
  unfold classAdd
  split
  · constructor
    · intro h; exact Or.inl h
    · rintro (h | h)
      · exact h
      · subst h; assumption
  · simp

theorem mem_classToggle_self (c : String) (force : Bool) (cs : List String) :
    c ∈ classToggle c force cs ↔ force = true := by
  cases force <;> simp [classToggle, mem_classRemove, mem_classAdd]

theorem mem_classToggle_of_ne (c x : String) (force : Bool) (cs : List String) (h : x ≠ c) :
    x ∈ classToggle c force cs ↔ x ∈ cs := by
  cases force <;> simp [classToggle, mem_classRemove, mem_classAdd, h]

theorem getAttr_setAttr (name name1 value : String) (a : Attrs) :
    getAttr name (setAttr name1 value a) = if name1 = name then some value else getAttr name a := by
  induction a with
  | nil => simp [setAttr, getAttr]
  | cons x xs ih =>
    obtain ⟨n, v⟩ := x
    by_cases h1 : n = name1
    · subst h1
      by_cases h2 : n = name <;> simp [setAttr, getAttr, h2]
    · by_cases h2 : n = name
      · subst h2
        have h3 : ¬ name1 = n := fun h => h1 h.symm
        simp [setAttr, getAttr, h1, h3]
      · simp [setAttr, getAttr, h1, h2, ih]

theorem elementAt_modifyElement (f : Element → Element) (d : Document) (r1 r : Ref) :
    elementAt (modifyElement f d r1) r = if r = r1 then (elementAt d r).map f else elementAt d r := by
  cases r1 with
  | other k1 =>
    cases r with
    | other k =>
      simp only [modifyElement, elementAt, getElem?_modifyAt]
      by_cases h : k1 = k
      · subst h
        cases hd : d[k1]? with
        | none => simp
        | some it => cases it <;> simp [Item.mapOther]
      · have h1 : ¬ Ref.other k = Ref.other k1 := fun e => h (Ref.other.inj e).symm
        simp [h, h1]
    | tab w c =>
      simp only [modifyElement, elementAt, getElem?_modifyAt]
      by_cases h : k1 = w
      · subst h
        cases hd : d[k1]? with
        | none => simp
        | some it => cases it <;> simp [Item.mapOther]
      · simp [h]
    | panel w j =>
      simp only [modifyElement, elementAt, getElem?_modifyAt]
      by_cases h : k1 = w
      · subst h
        cases hd : d[k1]? with
        | none => simp
        | some it => cases it <;> simp [Item.mapOther]
      · simp [h]
  | tab w1 c1 =>
    cases r with
    | other k =>
      simp only [modifyElement, elementAt, getElem?_modifyAt]
      by_cases h : w1 = k
      · subst h
        cases hd : d[w1]? with
        | none => simp
        | some it => cases it <;> simp [Item.mapTabber]
      · simp [h]
    | tab w c =>
      simp only [modifyElement, elementAt, getElem?_modifyAt]
      by_cases h : w1 = w
      · subst h
        cases hd : d[w1]? with
        | none => simp
        | some it =>
          cases it with
          | other e => simp [Item.mapTabber]
          | tabber t =>
            simp only [Item.mapTabber, Option.map_some', if_true, getElem?_modifyAt]
            by_cases hc : c1 = c
            · subst hc
              cases hs : t.strip[c1]? with
              | none => simp
              | some n => cases n <;> simp [StripNode.mapTab]
            · have h1 : ¬ Ref.tab w1 c = Ref.tab w1 c1 := fun e => hc (Ref.tab.inj e).2.symm
              simp [hc, h1]
      · have h1 : ¬ Ref.tab w c = Ref.tab w1 c1 := fun e => h (Ref.tab.inj e).1.symm
        simp [h, h1]
    | panel w j =>
      simp only [modifyElement, elementAt, getElem?_modifyAt]
      by_cases h : w1 = w
      · subst h
        cases hd : d[w1]? with
        | none => simp
        | some it => cases it <;> simp [Item.mapTabber]
      · simp [h]
  | panel w1 j1 =>
    cases r with
    | other k =>
      simp only [modifyElement, elementAt, getElem?_modifyAt]
      by_cases h : w1 = k
      · subst h
        cases hd : d[w1]? with
        | none => simp
        | some it => cases it <;> simp [Item.mapTabber]
      · simp [h]
    | tab w c =>
      simp only [modifyElement, elementAt, getElem?_modifyAt]
      by_cases h : w1 = w
      · subst h
        cases hd : d[w1]? with
        | none => simp
        | some it => cases it <;> simp [Item.mapTabber]
      · simp [h]
    | panel w j =>
      simp only [modifyElement, elementAt, getElem?_modifyAt]
      by_cases h : w1 = w
      · subst h
        cases hd : d[w1]? with
        | none => simp
        | some it =>
          cases it with
          | other e => simp [Item.mapTabber]
          | tabber t =>
            simp only [Item.mapTabber, Option.map_some', if_true, getElem?_modifyAt]
            by_cases hj : j1 = j
            · subst hj
              simp
            · have h1 : ¬ Ref.panel w1 j = Ref.panel w1 j1 := fun e => hj (Ref.panel.inj e).2.symm
              simp [hj, h1]
      · have h1 : ¬ Ref.panel w j = Ref.panel w1 j1 := fun e => h (Ref.panel.inj e).1.symm
        simp [h, h1]

/-! ## Tabs and panels of a widget -/

theorem mem_stripElems (w : Nat) (r : Ref) (e : Element) (c0 : Nat) (strip : List StripNode) :
    (r, e) ∈ stripElems w c0 strip ↔
      ∃ c, r = Ref.tab w (c0 + c) ∧ strip[c]? = some (StripNode.tab e) := by
  induction strip generalizing c0 with
  | nil => simp [stripElems]
  | cons n rest ih =>
    cases n with
    | tab e1 =>
      simp only [stripElems, List.mem_cons, Prod.mk.injEq, ih]
      constructor
      · rintro (⟨h1, h2⟩ | ⟨c, h1, h2⟩)
        · exact ⟨0, by simp [h1, h2]⟩
        · exact ⟨c + 1, by simp [h1, h2]; omega⟩
      · rintro ⟨c, h1, h2⟩
        cases c with
        | zero =>
          left
          simp at h2
          simp [h1, h2]
        | succ c =>
          right
          refine ⟨c, ?_, by simpa using h2⟩
          rw [h1]; congr 1; omega
    | text s1 =>
      simp only [stripElems, ih]
      constructor
      · rintro ⟨c, h1, h2⟩
        exact ⟨c + 1, by simp [h1, h2]; omega⟩
      · rintro ⟨c, h1, h2⟩
        cases c with
        | zero => simp at h2
        | succ c =>
          refine ⟨c, ?_, by simpa using h2⟩
          rw [h1]; congr 1; omega

theorem mem_panelElems (w : Nat) (r : Ref) (e : Element) (j0 : Nat) (panels : List Element) :
    (r, e) ∈ panelElems w j0 panels ↔
      ∃ j, r = Ref.panel w (j0 + j) ∧ panels[j]? = some e := by
  induction panels generalizing j0 with
  | nil => simp [panelElems]
  | cons p rest ih =>
    simp only [panelElems, List.mem_cons, Prod.mk.injEq, ih]
    constructor
    · rintro (⟨h1, h2⟩ | ⟨j, h1, h2⟩)
      · exact ⟨0, by simp [h1, h2]⟩
      · exact ⟨j + 1, by simp [h1, h2]; omega⟩
    · rintro ⟨j, h1, h2⟩
      cases j with
      | zero =>
        left
        simp at h2
        simp [h1, h2]
      | succ j =>
        right
        refine ⟨j, ?_, by simpa using h2⟩
        rw [h1]; congr 1; omega

theorem mem_stripRefs (w : Nat) (r : Ref) (c0 : Nat) (strip : List StripNode) :
    r ∈ (stripElems w c0 strip).map Prod.fst ↔
      ∃ c e, r = Ref.tab w (c0 + c) ∧ strip[c]? = some (StripNode.tab e) := by
  simp only [List.mem_map, Prod.exists, exists_and_right, exists_eq_right, mem_stripElems]
  constructor
  · rintro ⟨e, c, h1, h2⟩; exact ⟨c, e, h1, h2⟩
  · rintro ⟨c, e, h1, h2⟩; exact ⟨e, c, h1, h2⟩

theorem mem_panelRefs (w : Nat) (r : Ref) (j0 : Nat) (panels : List Element) :
    r ∈ (panelElems w j0 panels).map Prod.fst ↔
      ∃ j e, r = Ref.panel w (j0 + j) ∧ panels[j]? = some e := by
  simp only [List.mem_map, Prod.exists, exists_and_right, exists_eq_right, mem_panelElems]
  constructor
  · rintro ⟨e, j, h1, h2⟩; exact ⟨j, e, h1, h2⟩
  · rintro ⟨j, e, h1, h2⟩; exact ⟨e, j, h1, h2⟩

theorem nodup_stripRefs (w c0 : Nat) (strip : List StripNode) :
    ((stripElems w c0 strip).map Prod.fst).Nodup := by
  induction strip generalizing c0 with
  | nil => simp [stripElems]
  | cons n rest ih =>
    cases n with
    | tab e1 =>
      simp only [stripElems, List.map_cons, List.nodup_cons]
      refine ⟨?_, ih (c0 + 1)⟩
      intro h
      obtain ⟨c, e, h1, _⟩ := (mem_stripRefs w _ (c0 + 1) rest).mp h
      have := (Ref.tab.inj h1).2
      omega
    | text s1 => simpa [stripElems] using ih (c0 + 1)

theorem nodup_panelRefs (w j0 : Nat) (panels : List Element) :
    ((panelElems w j0 panels).map Prod.fst).Nodup := by
  induction panels generalizing j0 with
  | nil => simp [panelElems]
  | cons p rest ih =>
    simp only [panelElems, List.map_cons, List.nodup_cons]
    refine ⟨?_, ih (j0 + 1)⟩
    intro h
    obtain ⟨j, e, h1, _⟩ := (mem_panelRefs w _ (j0 + 1) rest).mp h
    have := (Ref.panel.inj h1).2
    omega

theorem stripRefs_modifyAt (f : Element → Element) (w c0 c : Nat) (strip : List StripNode) :
    (stripElems w c0 (modifyAt (StripNode.mapTab f) c strip)).map Prod.fst
      = (stripElems w c0 strip).map Prod.fst := by
  induction strip generalizing c0 c with
  | nil => cases c <;> simp [modifyAt]
  | cons n rest ih =>
    cases c with
    | zero => cases n <;> simp [modifyAt, StripNode.mapTab, stripElems]
    | succ c => cases n <;> simp [modifyAt, stripElems, ih]

theorem panelRefs_modifyAt (f : Element → Element) (w j0 j : Nat) (panels : List Element) :
    (panelElems w j0 (modifyAt f j panels)).map Prod.fst
      = (panelElems w j0 panels).map Prod.fst := by
  induction panels generalizing j0 j with
  | nil => cases j <;> simp [modifyAt]
  | cons p rest ih =>
    cases j with
    | zero => simp [modifyAt, panelElems]
    | succ j => simp [modifyAt, panelElems, ih]

theorem tabsOf_modifyElement (f : Element → Element) (d : Document) (r : Ref) (w : Nat) :
    tabsOf (modifyElement f d r) w = tabsOf d w := by
  cases r with
  | other k =>
    simp only [tabsOf, modifyElement, getElem?_modifyAt]
    by_cases h : k = w
    · subst h
      cases hd : d[k]? with
      | none => simp
      | some it => cases it <;> simp [Item.mapOther]
    · simp [h]
  | tab w1 c =>
    simp only [tabsOf, modifyElement, getElem?_modifyAt]
    by_cases h : w1 = w
    · subst h
      cases hd : d[w1]? with
      | none => simp
      | some it => cases it <;> simp [Item.mapTabber, stripRefs_modifyAt]
    · simp [h]
  | panel w1 j =>
    simp only [tabsOf, modifyElement, getElem?_modifyAt]
    by_cases h : w1 = w
    · subst h
      cases hd : d[w1]? with
      | none => simp
      | some it => cases it <;> simp [Item.mapTabber]
    · simp [h]

theorem panelsOf_modifyElement (f : Element → Element) (d : Document) (r : Ref) (w : Nat) :
    panelsOf (modifyElement f d r) w = panelsOf d w := by
  cases r with
  | other k =>
    simp only [panelsOf, modifyElement, getElem?_modifyAt]
    by_cases h : k = w
    · subst h
      cases hd : d[k]? with
      | none => simp
      | some it => cases it <;> simp [Item.mapOther]
    · simp [h]
  | tab w1 c =>
    simp only [panelsOf, modifyElement, getElem?_modifyAt]
    by_cases h : w1 = w
    · subst h
      cases hd : d[w1]? with
      | none => simp
      | some it => cases it <;> simp [Item.mapTabber]
    · simp [h]
  | panel w1 j =>
    simp only [panelsOf, modifyElement, getElem?_modifyAt]
    by_cases h : w1 = w
    · subst h
      cases hd : d[w1]? with
      | none => simp
      | some it => cases it <;> simp [Item.mapTabber, panelRefs_modifyAt]
    · simp [h]

theorem tabsOf_applyUpdates (us : List Update) (d : Document) (w : Nat) :
    tabsOf (applyUpdates d us) w = tabsOf d w := by
  induction us generalizing d with
  | nil => rfl
  | cons u us ih =>
    simp only [applyUpdates, List.foldl_cons] at ih ⊢
    rw [ih, tabsOf_modifyElement]

theorem panelsOf_applyUpdates (us : List Update) (d : Document) (w : Nat) :
    panelsOf (applyUpdates d us) w = panelsOf d w := by
  induction us generalizing d with
  | nil => rfl
  | cons u us ih =>
    simp only [applyUpdates, List.foldl_cons] at ih ⊢
    rw [ih, panelsOf_modifyElement]

theorem elementAt_applyUpdates (u : Ref → Update) (hu : ∀ r, (u r).element = r)
    (refs : List Ref) (hnd : refs.Nodup) (d : Document) (r : Ref) :
    elementAt (applyUpdates d (refs.map u)) r
      = if r ∈ refs then (elementAt d r).map (setAttributes (u r).attributes)
        else elementAt d r := by
  induction refs generalizing d with
  | nil => simp [applyUpdates]
  | cons r0 rest ih =>
    have hnd1 := (List.nodup_cons.mp hnd)
    simp only [applyUpdates, List.map_cons, List.foldl_cons] at ih ⊢
    rw [ih hnd1.2, elementAt_modifyElement, hu]
    by_cases h : r = r0
    · subst h
      simp [hnd1.1]
    · simp [h]

theorem filter_eq_singleton {α : Type} (p : α → Bool) (a : α) (l : List α) (hnd : l.Nodup)
    (ha : a ∈ l) (hp : ∀ x ∈ l, p x = true ↔ x = a) : l.filter p = [a] := by
  induction l with
  | nil => simp at ha
  | cons x xs ih =>
    have hnd1 := List.nodup_cons.mp hnd
    by_cases hx : x = a
    · subst hx
      have hpx : p x = true := (hp x (List.mem_cons_self _ _)).mpr rfl
      have hrest : xs.filter p = [] := by
        rw [List.filter_eq_nil_iff]
        intro y hy hpy
        have := (hp y (List.mem_cons_of_mem _ hy)).mp hpy
        subst this
        exact hnd1.1 hy
      simp [List.filter_cons, hpx, hrest]
    · have hpx : ¬ p x = true := fun h => hx ((hp x (List.mem_cons_self _ _)).mp h)
      have ha1 : a ∈ xs := by
        rcases List.mem_cons.mp ha with h | h
        · exact absurd h.symm hx
        · exact h
      simp only [List.filter_cons, hpx, if_false]
      exact ih hnd1.2 ha1 (fun y hy => hp y (List.mem_cons_of_mem _ hy))

/-! ## Activation -/

theorem setActiveTab_ok (d : Document) (tab : Ref) (w j : Nat) (t : Tabber)
    (hw : d[w]? = some (Item.tabber t))
    (hres : getElementById d ((attrOf d tab "aria-controls").getD "null")
      = some (Ref.panel w j)) :
    TabberAction.setActiveTab d (some tab)
      = .ok (Frame.activeTab ((panelsOf d w).map (panelUpdate (Ref.panel w j)))
          ((tabsOf d w).map (tabUpdate tab)) tab (Ref.panel w j)) := by
  simp only [TabberAction.setActiveTab, hres, closestTabber, hw, panelsOf, tabsOf]
  rfl

theorem elementAt_of_mem_tabsOf (d : Document) (w : Nat) (r : Ref) (h : r ∈ tabsOf d w) :
    (∃ c, r = Ref.tab w c) ∧ ∃ e, elementAt d r = some e := by
  unfold tabsOf at h
  cases hd : d[w]? with
  | none => simp [hd] at h
  | some it =>
    cases it with
    | other e => simp [hd] at h
    | tabber t =>
      simp only [hd] at h
      obtain ⟨c, e, h1, h2⟩ := (mem_stripRefs w r 0 t.strip).mp h
      rw [Nat.zero_add] at h1
      subst h1
      exact ⟨⟨c, rfl⟩, e, by simp [elementAt, hd, h2]⟩

theorem elementAt_of_mem_panelsOf (d : Document) (w : Nat) (r : Ref) (h : r ∈ panelsOf d w) :
    (∃ j, r = Ref.panel w j) ∧ ∃ e, elementAt d r = some e := by
  unfold panelsOf at h
  cases hd : d[w]? with
  | none => simp [hd] at h
  | some it =>
    cases it with
    | other e => simp [hd] at h
    | tabber t =>
      simp only [hd] at h
      obtain ⟨j, e, h1, h2⟩ := (mem_panelRefs w r 0 t.panels).mp h
      rw [Nat.zero_add] at h1
      subst h1
      exact ⟨⟨j, rfl⟩, e, by simp [elementAt, hd, h2]⟩

theorem nodup_tabsOf (d : Document) (w : Nat) : (tabsOf d w).Nodup := by
  unfold tabsOf
  cases hd : d[w]? with
  | none => simp
  | some it =>
    cases it with
    | other e => simp
    | tabber t => exact nodup_stripRefs w 0 t.strip

theorem nodup_panelsOf (d : Document) (w : Nat) : (panelsOf d w).Nodup := by
  unfold panelsOf
  cases hd : d[w]? with
  | none => simp
  | some it =>
    cases it with
    | other e => simp
    | tabber t => exact nodup_panelRefs w 0 t.panels

theorem panelUpdate_element (a r : Ref) : (panelUpdate a r).element = r := by
  unfold panelUpdate; split <;> rfl

theorem tabUpdate_element (a r : Ref) : (tabUpdate a r).element = r := by
  unfold tabUpdate; split <;> rfl

/-- What the callback of `setActiveTab` leaves on a tab of the widget. -/
theorem activation_tab (d : Document) (w : Nat) (activeTab activeTabpanel r : Ref)
    (hr : r ∈ tabsOf d w) :
    attrOf (applyUpdates (applyUpdates d ((panelsOf d w).map (panelUpdate activeTabpanel)))
        ((tabsOf d w).map (tabUpdate activeTab))) r "aria-selected"
      = some (if r = activeTab then "true" else "false") ∧
    attrOf (applyUpdates (applyUpdates d ((panelsOf d w).map (panelUpdate activeTabpanel)))
        ((tabsOf d w).map (tabUpdate activeTab))) r "tabindex"
      = some (if r = activeTab then "0" else "-1") := by
  obtain ⟨⟨c, hc⟩, e, he⟩ := elementAt_of_mem_tabsOf d w r hr
  have hnp : r ∉ panelsOf d w := by
    intro h
    obtain ⟨⟨j, hj⟩, _⟩ := elementAt_of_mem_panelsOf d w r h
    rw [hc] at hj
    exact Ref.noConfusion hj
  have h1 : elementAt (applyUpdates d ((panelsOf d w).map (panelUpdate activeTabpanel))) r
      = some e := by
    rw [elementAt_applyUpdates _ (panelUpdate_element activeTabpanel) _ (nodup_panelsOf d w),
      if_neg hnp, he]
  have h2 : elementAt (applyUpdates (applyUpdates d ((panelsOf d w).map
      (panelUpdate activeTabpanel))) ((tabsOf d w).map (tabUpdate activeTab))) r
      = some (setAttributes (tabUpdate activeTab r).attributes e) := by
    rw [elementAt_applyUpdates _ (tabUpdate_element activeTab) _ (nodup_tabsOf d w),
      if_pos hr, h1]
    rfl
  unfold attrOf
  rw [h2]
  by_cases h : r = activeTab
  · simp [tabUpdate, h, setAttributes, getAttr_setAttr]
  · simp [tabUpdate, h, setAttributes, getAttr_setAttr]

/-- What the callback of `setActiveTab` leaves on a panel of the widget. -/
theorem activation_panel (d : Document) (w : Nat) (activeTab activeTabpanel r : Ref)
    (hr : r ∈ panelsOf d w) :
    attrOf (applyUpdates (applyUpdates d ((panelsOf d w).map (panelUpdate activeTabpanel)))
        ((tabsOf d w).map (tabUpdate activeTab))) r "aria-hidden"
      = some (if r = activeTabpanel then "false" else "true") := by
  obtain ⟨⟨j, hj⟩, e, he⟩ := elementAt_of_mem_panelsOf d w r hr
  have hnt : r ∉ tabsOf d w := by
    intro h
    obtain ⟨⟨c, hc⟩, _⟩ := elementAt_of_mem_tabsOf d w r h
    rw [hj] at hc
    exact Ref.noConfusion hc
  have h1 : elementAt (applyUpdates d ((panelsOf d w).map (panelUpdate activeTabpanel))) r
      = some (setAttributes (panelUpdate activeTabpanel r).attributes e) := by
    rw [elementAt_applyUpdates _ (panelUpdate_element activeTabpanel) _ (nodup_panelsOf d w),
      if_pos hr, he]
    rfl
  have h2 : elementAt (applyUpdates (applyUpdates d ((panelsOf d w).map
      (panelUpdate activeTabpanel))) ((tabsOf d w).map (tabUpdate activeTab))) r
      = some (setAttributes (panelUpdate activeTabpanel r).attributes e) := by
    rw [elementAt_applyUpdates _ (tabUpdate_element activeTab) _ (nodup_tabsOf d w),
      if_neg hnt, h1]
  unfold attrOf
  rw [h2]
  by_cases h : r = activeTabpanel
  · simp [panelUpdate, h, setAttributes, getAttr_setAttr]
  · simp [panelUpdate, h, setAttributes, getAttr_setAttr]

/-- After the callback of `setActiveTab` exactly one tab of the widget is
selected and exactly one panel is visible. -/
theorem activation_exactly_one (d : Document) (w : Nat) (tab tabpanel : Ref)
    (htab : tab ∈ tabsOf d w) (hpanel : tabpanel ∈ panelsOf d w) :
    tabsOf (applyUpdates (applyUpdates d ((panelsOf d w).map (panelUpdate tabpanel)))
        ((tabsOf d w).map (tabUpdate tab))) w = tabsOf d w ∧
    panelsOf (applyUpdates (applyUpdates d ((panelsOf d w).map (panelUpdate tabpanel)))
        ((tabsOf d w).map (tabUpdate tab))) w = panelsOf d w ∧
    (tabsOf (applyUpdates (applyUpdates d ((panelsOf d w).map (panelUpdate tabpanel)))
        ((tabsOf d w).map (tabUpdate tab))) w).filter
      (fun r => decide (attrOf (applyUpdates (applyUpdates d ((panelsOf d w).map
        (panelUpdate tabpanel))) ((tabsOf d w).map (tabUpdate tab))) r "aria-selected"
          = some "true")) = [tab] ∧
    attrOf (applyUpdates (applyUpdates d ((panelsOf d w).map (panelUpdate tabpanel)))
        ((tabsOf d w).map (tabUpdate tab))) tab "tabindex" = some "0" ∧
    (∀ r ∈ tabsOf (applyUpdates (applyUpdates d ((panelsOf d w).map (panelUpdate tabpanel)))
        ((tabsOf d w).map (tabUpdate tab))) w, r ≠ tab →
      attrOf (applyUpdates (applyUpdates d ((panelsOf d w).map (panelUpdate tabpanel)))
        ((tabsOf d w).map (tabUpdate tab))) r "aria-selected" = some "false" ∧
      attrOf (applyUpdates (applyUpdates d ((panelsOf d w).map (panelUpdate tabpanel)))
        ((tabsOf d w).map (tabUpdate tab))) r "tabindex" = some "-1") ∧
    (panelsOf (applyUpdates (applyUpdates d ((panelsOf d w).map (panelUpdate tabpanel)))
        ((tabsOf d w).map (tabUpdate tab))) w).filter
      (fun r => decide (attrOf (applyUpdates (applyUpdates d ((panelsOf d w).map
        (panelUpdate tabpanel))) ((tabsOf d w).map (tabUpdate tab))) r "aria-hidden"
          = some "false")) = [tabpanel] ∧
    (∀ r ∈ panelsOf (applyUpdates (applyUpdates d ((panelsOf d w).map (panelUpdate tabpanel)))
        ((tabsOf d w).map (tabUpdate tab))) w, r ≠ tabpanel →
      attrOf (applyUpdates (applyUpdates d ((panelsOf d w).map (panelUpdate tabpanel)))
        ((tabsOf d w).map (tabUpdate tab))) r "aria-hidden" = some "true") := by
  have ht : tabsOf (applyUpdates (applyUpdates d ((panelsOf d w).map (panelUpdate tabpanel)))
      ((tabsOf d w).map (tabUpdate tab))) w = tabsOf d w := by
    rw [tabsOf_applyUpdates, tabsOf_applyUpdates]
  have hp : panelsOf (applyUpdates (applyUpdates d ((panelsOf d w).map (panelUpdate tabpanel)))
      ((tabsOf d w).map (tabUpdate tab))) w = panelsOf d w := by
    rw [panelsOf_applyUpdates, panelsOf_applyUpdates]
  rw [ht, hp]
  refine ⟨rfl, rfl, ?_, ?_, ?_, ?_, ?_⟩
  · apply filter_eq_singleton _ _ _ (nodup_tabsOf d w) htab
    intro r hr
    rw [decide_eq_true_iff, (activation_tab d w _ _ r hr).1]
    by_cases h : r = tab <;> simp [h]
  · rw [(activation_tab d w _ _ _ htab).2]; simp
  · intro r hr hne
    obtain ⟨h1, h2⟩ := activation_tab d w tab tabpanel r hr
    rw [h1, h2]
    simp [hne]
  · apply filter_eq_singleton _ _ _ (nodup_panelsOf d w) hpanel
    intro r hr
    rw [decide_eq_true_iff, activation_panel d w _ _ r hr]
    by_cases h : r = tabpanel <;> simp [h]
  · intro r hr hne
    rw [activation_panel d w tab tabpanel r hr]
    simp [hne]

theorem tabber_of_mem_tabsOf (d : Document) (w : Nat) (r : Ref) (h : r ∈ tabsOf d w) :
    ∃ t, d[w]? = some (Item.tabber t) := by
  unfold tabsOf at h
  cases hd : d[w]? with
  | none => simp [hd] at h
  | some it =>
    cases it with
    | other e => simp [hd] at h
    | tabber t => exact ⟨t, rfl⟩

/-- C1: for a tab of the widget whose `aria-controls` resolves to a panel of
the same widget, `setActiveTab` returns and, once its animation-frame
callback ran, exactly one tab of the widget has `aria-selected=true` (that
tab, with `tabindex` `0`; every other tab has `aria-selected=false` and
`tabindex` `-1`) and exactly one panel has `aria-hidden=false` (that panel;
every other panel has `aria-hidden=true`), whatever the attributes were. -/
theorem setActiveTab_exactly_one {σ : Type} (W : World σ) (w c j : Nat)
    (htab : Ref.tab w c ∈ tabsOf W.doc w) (hpanel : Ref.panel w j ∈ panelsOf W.doc w)
    (hres : getElementById W.doc ((attrOf W.doc (Ref.tab w c) "aria-controls").getD "null")
      = some (Ref.panel w j)) :
    ∃ (f : Frame) (d1 : Document),
      TabberAction.setActiveTab W.doc (some (Ref.tab w c)) = .ok f ∧
      d1 = (runFrame W f).doc ∧
      tabsOf d1 w = tabsOf W.doc w ∧ panelsOf d1 w = panelsOf W.doc w ∧
      (tabsOf d1 w).filter (fun r => decide (attrOf d1 r "aria-selected" = some "true"))
        = [Ref.tab w c] ∧
      attrOf d1 (Ref.tab w c) "tabindex" = some "0" ∧
      (∀ r ∈ tabsOf d1 w, r ≠ Ref.tab w c →
        attrOf d1 r "aria-selected" = some "false" ∧ attrOf d1 r "tabindex" = some "-1") ∧
      (panelsOf d1 w).filter (fun r => decide (attrOf d1 r "aria-hidden" = some "false"))
        = [Ref.panel w j] ∧
      (∀ r ∈ panelsOf d1 w, r ≠ Ref.panel w j → attrOf d1 r "aria-hidden" = some "true") := by
  obtain ⟨t, hw⟩ := tabber_of_mem_tabsOf W.doc w _ htab
  exact ⟨_, _, setActiveTab_ok W.doc _ w j t hw hres, rfl,
    activation_exactly_one W.doc w _ _ htab hpanel⟩

theorem setActiveTab_exactly_one_witness :
    ∃ (f : Frame) (d1 : Document),
      TabberAction.setActiveTab abcBuilt.doc (some (Ref.tab 0 2)) = .ok f ∧
      d1 = (runFrame abcBuilt f).doc ∧
      (tabsOf d1 0).filter (fun r => decide (attrOf d1 r "aria-selected" = some "true"))
        = [Ref.tab 0 2] ∧
      (panelsOf d1 0).filter (fun r => decide (attrOf d1 r "aria-hidden" = some "false"))
        = [Ref.panel 0 2] := by
  obtain ⟨f, d1, h1, h2, _, _, h3, _, _, h4, _⟩ :=
    setActiveTab_exactly_one abcBuilt 0 2 2 (by decide) (by decide) (by decide)
  exact ⟨f, d1, h1, h2, h3, h4⟩

/-! ## The animation gate -/

/-- C2: `shouldShowAnimation` returns `false` exactly when the reduced-motion
query matches and `config.enableAnimation` is true; in particular with
reduced motion and `enableAnimation` false it returns `true` and
`toggleAnimation` hands the class toggle to `requestAnimationFrame`. -/
theorem shouldShowAnimation_false_iff :
    (∀ (reducedMotion : Bool) (config : Config),
      TabberAction.shouldShowAnimation reducedMotion config = false ↔
        (reducedMotion = true ∧ config.enableAnimation = true)) ∧
    (∀ (u p : Bool),
      TabberAction.shouldShowAnimation true
          { enableAnimation := false, updateLocationOnTabChange := u, parseTabName := p } = true ∧
      TabberAction.toggleAnimation true
          { enableAnimation := false, updateLocationOnTabChange := u, parseTabName := p } true
        = [Frame.toggleAnimation true]) := by
  refine ⟨?_, ?_⟩
  · intro r c
    cases r <;> cases h : c.enableAnimation <;> simp [TabberAction.shouldShowAnimation, h]
  · intro u p
    simp [TabberAction.shouldShowAnimation, TabberAction.toggleAnimation]

/-! ## Scrolling the tab strip -/

/-- C3, as stated, fails: on a strip whose `offsetWidth` exceeds its
`scrollWidth` the position `scrollTablist` writes is negative. -/
theorem scrollTablist_below_zero :
    scrollLeftOf (runFrame (page [Item.tabber borderedStrip] "")
        (TabberAction.scrollTablist plainUtil 151 0 borderedStrip.tablist)).doc 0 = some (-2) ∧
      ¬ ((0 : ℚ) ≤ -2 ∧ (-2 : ℚ) ≤ 300 - 302) := by
  refine ⟨?_, by norm_num⟩
  simp [scrollLeftOf, runFrame, TabberAction.scrollTablist, page, modifyAt, Item.mapTabber,
    Tabber.scrollTo, borderedStrip, plainUtil]
  norm_num

/-- C3, amended: for every strip and every offset the position the callback of
`scrollTablist` writes is `min (max (roundScrollLeft scrollLeft + offset) 0)
(scrollWidth - offsetWidth)`; when `offsetWidth ≤ scrollWidth` it lies within
`[0, scrollWidth - offsetWidth]`; when `offsetWidth > scrollWidth` it is
`scrollWidth - offsetWidth`, which is negative. -/
theorem scrollTablist_clamped {σ : Type} (W : World σ) (util : Util) (offset : ℚ) (w : Nat)
    (t : Tabber) (hw : W.doc[w]? = some (Item.tabber t)) :
    ∃ pos : ℚ,
      scrollLeftOf (runFrame W (TabberAction.scrollTablist util offset w t.tablist)).doc w
        = some pos ∧
      pos = min (max (util.roundScrollLeft t.tablist.scrollLeft + offset) 0)
        (t.tablist.scrollWidth - t.tablist.offsetWidth) ∧
      (t.tablist.offsetWidth ≤ t.tablist.scrollWidth →
        0 ≤ pos ∧ pos ≤ t.tablist.scrollWidth - t.tablist.offsetWidth) ∧
      (t.tablist.scrollWidth < t.tablist.offsetWidth →
        pos = t.tablist.scrollWidth - t.tablist.offsetWidth ∧ pos < 0) := by
  refine ⟨_, ?_, rfl, ?_, ?_⟩
  · simp [scrollLeftOf, runFrame, TabberAction.scrollTablist, getElem?_modifyAt, hw,
      Item.mapTabber, Tabber.scrollTo]
  · intro hgeo
    exact ⟨le_min (le_max_right _ _) (sub_nonneg.mpr hgeo), min_le_right _ _⟩
  · intro hgeo
    have hneg : t.tablist.scrollWidth - t.tablist.offsetWidth < 0 := sub_neg.mpr hgeo
    have hle : t.tablist.scrollWidth - t.tablist.offsetWidth
        ≤ max (util.roundScrollLeft t.tablist.scrollLeft + offset) 0 :=
      le_trans (le_of_lt hneg) (le_max_right _ _)
    rw [min_eq_right hle]
    exact ⟨rfl, hneg⟩

theorem scrollTablist_clamped_witness :
    ∃ pos : ℚ,
      scrollLeftOf (runFrame (page [Item.tabber wideStrip] "")
        (TabberAction.scrollTablist plainUtil 1000 0 wideStrip.tablist)).doc 0 = some pos ∧
      pos = min (max (plainUtil.roundScrollLeft wideStrip.tablist.scrollLeft + 1000) 0)
        (wideStrip.tablist.scrollWidth - wideStrip.tablist.offsetWidth) ∧
      0 ≤ pos ∧ pos ≤ wideStrip.tablist.scrollWidth - wideStrip.tablist.offsetWidth := by
  obtain ⟨pos, h1, h2, h3, _⟩ :=
    scrollTablist_clamped (page [Item.tabber wideStrip] "") plainUtil 1000 0 wideStrip
      (by simp [page])
  exact ⟨pos, h1, h2, h3 (by norm_num [wideStrip])⟩

/-! ## Header overflow -/

theorem headerClassesOf_removeOverflow {σ : Type} (W : World σ) (w : Nat) (t : Tabber)
    (hw : W.doc[w]? = some (Item.tabber t)) :
    headerClassesOf (runFrame W (Frame.overflowRemove w)).doc w
      = some (classRemove "tabber__header--prev-visible"
          (classRemove "tabber__header--next-visible" t.headerClasses)) := by
  simp [headerClassesOf, runFrame, getElem?_modifyAt, hw, Item.mapTabber, Tabber.removeOverflow]

theorem headerClassesOf_toggleOverflow {σ : Type} (W : World σ) (w : Nat) (t : Tabber)
    (next prev : Bool) (hw : W.doc[w]? = some (Item.tabber t)) :
    headerClassesOf (runFrame W (Frame.overflowToggle w next prev)).doc w
      = some (classToggle "tabber__header--prev-visible" prev
          (classToggle "tabber__header--next-visible" next t.headerClasses)) := by
  simp [headerClassesOf, runFrame, getElem?_modifyAt, hw, Item.mapTabber, Tabber.toggleOverflow]

/-- C4: after the callback of `updateHeaderOverflow` the header has neither
`next-visible` nor `prev-visible` when `scrollWidth ≤ offsetWidth`; otherwise
only `next-visible` at the start (rounded position `≤ 0`), only
`prev-visible` at the end (position plus `offsetWidth` reaches `scrollWidth`),
both in the middle; start and end never hold together for a scrollable strip,
so one of the two classes is set; every other class of the header is kept. -/
theorem updateHeaderOverflow_classes {σ : Type} (W : World σ) (util : Util) (w : Nat)
    (t : Tabber) (hw : W.doc[w]? = some (Item.tabber t)) :
    ∃ classes : List String,
      headerClassesOf (runFrame W (TabberAction.updateHeaderOverflow util w t)).doc w
        = some classes ∧
      (t.tablist.scrollWidth ≤ t.tablist.offsetWidth →
        "tabber__header--next-visible" ∉ classes ∧ "tabber__header--prev-visible" ∉ classes) ∧
      (t.tablist.offsetWidth < t.tablist.scrollWidth →
        util.roundScrollLeft t.tablist.scrollLeft ≤ 0 →
        "tabber__header--next-visible" ∈ classes ∧ "tabber__header--prev-visible" ∉ classes) ∧
      (t.tablist.offsetWidth < t.tablist.scrollWidth →
        t.tablist.scrollWidth ≤ util.roundScrollLeft t.tablist.scrollLeft + t.tablist.offsetWidth →
        "tabber__header--next-visible" ∉ classes ∧ "tabber__header--prev-visible" ∈ classes) ∧
      (t.tablist.offsetWidth < t.tablist.scrollWidth →
        0 < util.roundScrollLeft t.tablist.scrollLeft →
        util.roundScrollLeft t.tablist.scrollLeft + t.tablist.offsetWidth < t.tablist.scrollWidth →
        "tabber__header--next-visible" ∈ classes ∧ "tabber__header--prev-visible" ∈ classes) ∧
      (t.tablist.offsetWidth < t.tablist.scrollWidth →
        ¬ (util.roundScrollLeft t.tablist.scrollLeft ≤ 0 ∧
          t.tablist.scrollWidth ≤ util.roundScrollLeft t.tablist.scrollLeft + t.tablist.offsetWidth)) ∧
      (t.tablist.offsetWidth < t.tablist.scrollWidth →
        "tabber__header--next-visible" ∈ classes ∨ "tabber__header--prev-visible" ∈ classes) ∧
      (∀ c : String, c ≠ "tabber__header--next-visible" → c ≠ "tabber__header--prev-visible" →
        (c ∈ classes ↔ c ∈ t.headerClasses)) := by
  have hne : "tabber__header--next-visible" ≠ "tabber__header--prev-visible" := by decide
  by_cases hs : t.tablist.offsetWidth < t.tablist.scrollWidth
  · have hfr : TabberAction.updateHeaderOverflow util w t
        = Frame.overflowToggle w
            (decide (util.roundScrollLeft t.tablist.scrollLeft ≤ 0) ||
              (!decide (util.roundScrollLeft t.tablist.scrollLeft ≤ 0) &&
                !decide (util.roundScrollLeft t.tablist.scrollLeft + t.tablist.offsetWidth
                  ≥ t.tablist.scrollWidth)))
            (decide (util.roundScrollLeft t.tablist.scrollLeft + t.tablist.offsetWidth
                ≥ t.tablist.scrollWidth) ||
              (!decide (util.roundScrollLeft t.tablist.scrollLeft ≤ 0) &&
                !decide (util.roundScrollLeft t.tablist.scrollLeft + t.tablist.offsetWidth
                  ≥ t.tablist.scrollWidth))) := by
      simp [TabberAction.updateHeaderOverflow, hs]
    refine ⟨_, by rw [hfr]; exact headerClassesOf_toggleOverflow W w t _ _ hw, ?_⟩
    have hnext : ∀ (b : Bool) (cs : List String),
        "tabber__header--next-visible" ∈ classToggle "tabber__header--prev-visible" b cs
          ↔ "tabber__header--next-visible" ∈ cs :=
      fun b cs => mem_classToggle_of_ne _ _ b cs hne
    simp only [hnext, mem_classToggle_self]
    refine ⟨fun h => absurd hs (not_lt.mpr h), ?_, ?_, ?_, ?_, ?_, ?_⟩
    · intro _ h0
      have h1 : ¬ t.tablist.scrollWidth ≤
          util.roundScrollLeft t.tablist.scrollLeft + t.tablist.offsetWidth := by
        intro h; linarith
      simp [h0, h1]
    · intro _ h1
      have h0 : ¬ util.roundScrollLeft t.tablist.scrollLeft ≤ 0 := by
        intro h; linarith
      simp [h0, h1]
    · intro _ h0 h1
      simp [not_le.mpr h0, not_le.mpr h1]
    · intro _ h
      linarith [h.1, h.2]
    · intro _
      by_cases h0 : util.roundScrollLeft t.tablist.scrollLeft ≤ 0
      · simp [h0]
      · by_cases h1 : t.tablist.scrollWidth ≤
            util.roundScrollLeft t.tablist.scrollLeft + t.tablist.offsetWidth
        · simp [h0, h1]
        · simp [h0, h1]
    · intro c hc1 hc2
      rw [mem_classToggle_of_ne _ _ _ _ hc2, mem_classToggle_of_ne _ _ _ _ hc1]
  · have hfr : TabberAction.updateHeaderOverflow util w t = Frame.overflowRemove w := by
      simp [TabberAction.updateHeaderOverflow, hs]
    refine ⟨_, by rw [hfr]; exact headerClassesOf_removeOverflow W w t hw, ?_⟩
    simp only [mem_classRemove]
    refine ⟨fun _ => ⟨fun h => h.1.2 rfl, fun h => h.2 rfl⟩, fun h => absurd h hs,
      fun h => absurd h hs, fun h => absurd h hs, fun h => absurd h hs, fun h => absurd h hs, ?_⟩
    intro c hc1 hc2
    simp [hc1, hc2]

theorem updateHeaderOverflow_classes_witness :
    ∃ classes : List String,
      headerClassesOf (runFrame (page [Item.tabber wideStrip] "")
        (TabberAction.updateHeaderOverflow plainUtil 0 wideStrip)).doc 0 = some classes ∧
      "tabber__header--next-visible" ∈ classes ∧ "tabber__header--prev-visible" ∈ classes := by
  obtain ⟨classes, h, _, _, _, hmid, _⟩ :=
    updateHeaderOverflow_classes (page [Item.tabber wideStrip] "") plainUtil 0 wideStrip
      (by simp [page])
  exact ⟨classes, h, hmid (by norm_num [wideStrip]) (by norm_num [wideStrip, plainUtil])
    (by norm_num [wideStrip, plainUtil])⟩

/-! ## Keyboard focus -/

theorem nodeAt_natCast (nodes : List Ref) (i : Nat) : nodeAt nodes (i : Int) = nodes[i]? := by
  simp [nodeAt]

theorem nextFocus_right (i n : Nat) :
    TabberEvent.nextFocus "right" (i : Int) (n : Int) = (((i + 1) % n : Nat) : Int) := by
  simp only [TabberEvent.nextFocus, if_true]
  rw [Int.tmod_eq_emod (by omega) (by omega)]
  push_cast
  rfl

theorem nextFocus_left (i n : Nat) (hn : 0 < n) :
    TabberEvent.nextFocus "left" (i : Int) (n : Int) = (((i + (n - 1)) % n : Nat) : Int) := by
  have h : ("left" : String) ≠ "right" := by decide
  simp only [TabberEvent.nextFocus, h, if_false, if_true]
  rw [Int.tmod_eq_emod (by omega) (by omega)]
  have : ((i : Int) - 1 + n) = ((i + (n - 1) : Nat) : Int) := by omega
  rw [this]
  rfl

theorem succ_mod_length (i n : Nat) (hi : i < n) :
    (i + 1) % n = if i + 1 = n then 0 else i + 1 := by
  split
  · next h => rw [h, Nat.mod_self]
  · next h => exact Nat.mod_eq_of_lt (by omega)

theorem pred_mod_length (i n : Nat) (hi : i < n) :
    (i + (n - 1)) % n = if i = 0 then n - 1 else i - 1 := by
  split
  · next h => subst h; rw [Nat.zero_add]; exact Nat.mod_eq_of_lt (by omega)
  · next h =>
    have : i + (n - 1) = (i - 1) + n := by omega
    rw [this, Nat.add_mod_right]
    exact Nat.mod_eq_of_lt (by omega)

theorem handleTabFocusChange_right (d : Document) (ev : TabberEvent) (i : Nat)
    (hfocus : ev.tabFocus = (i : Int)) (hi : i < ev.tabs.length) :
    ∃ d1 tab, TabberEvent.handleTabFocusChange d ev "right"
      = .ok (d1, { ev with tabFocus := (((i + 1) % ev.tabs.length : Nat) : Int) }, tab) ∧
      ev.tabs[(i + 1) % ev.tabs.length]? = some tab := by
  have hlt : (i + 1) % ev.tabs.length < ev.tabs.length := Nat.mod_lt _ (by omega)
  unfold TabberEvent.handleTabFocusChange
  rw [hfocus, nodeAt_natCast, List.getElem?_eq_getElem hi]
  simp only [nextFocus_right, nodeAt_natCast, List.getElem?_eq_getElem hlt]
  exact ⟨_, _, rfl, rfl⟩

theorem handleTabFocusChange_left (d : Document) (ev : TabberEvent) (i : Nat)
    (hfocus : ev.tabFocus = (i : Int)) (hi : i < ev.tabs.length) :
    ∃ d1 tab, TabberEvent.handleTabFocusChange d ev "left"
      = .ok (d1, { ev with tabFocus := (((i + (ev.tabs.length - 1)) % ev.tabs.length : Nat) : Int) },
          tab) ∧
      ev.tabs[(i + (ev.tabs.length - 1)) % ev.tabs.length]? = some tab := by
  have hlt : (i + (ev.tabs.length - 1)) % ev.tabs.length < ev.tabs.length :=
    Nat.mod_lt _ (by omega)
  unfold TabberEvent.handleTabFocusChange
  rw [hfocus, nodeAt_natCast, List.getElem?_eq_getElem hi]
  simp only [nextFocus_left _ _ (show 0 < ev.tabs.length by omega), nodeAt_natCast,
    List.getElem?_eq_getElem hlt]
  exact ⟨_, _, rfl, rfl⟩

/-- C5: with `n ≥ 1` tabs and focus index `i < n`, `handleTabFocusChange`
returns, `right` sets the focus index to `(i + 1) mod n` and `left` to
`(i - 1 + n) mod n`; the index stays in `[0, n)`, `right` from the last tab
gives `0`, `left` from the first gives `n - 1`, and each direction undoes the
other. -/
theorem handleTabFocusChange_wraps (d : Document) (ev : TabberEvent) (i n : Nat)
    (hlen : ev.tabs.length = n) (hfocus : ev.tabFocus = (i : Int)) (hi : i < n) :
    ∃ dR evR tR dL evL tL,
      TabberEvent.handleTabFocusChange d ev "right" = .ok (dR, evR, tR) ∧
      TabberEvent.handleTabFocusChange d ev "left" = .ok (dL, evL, tL) ∧
      evR.tabFocus = ((i : Int) + 1) % (n : Int) ∧
      evL.tabFocus = ((i : Int) - 1 + (n : Int)) % (n : Int) ∧
      (0 ≤ evR.tabFocus ∧ evR.tabFocus < (n : Int)) ∧
      (0 ≤ evL.tabFocus ∧ evL.tabFocus < (n : Int)) ∧
      (i = n - 1 → evR.tabFocus = 0) ∧
      (i = 0 → evL.tabFocus = (n : Int) - 1) ∧
      (∃ d2 ev2 t2, TabberEvent.handleTabFocusChange dR evR "left" = .ok (d2, ev2, t2) ∧
        ev2.tabFocus = (i : Int)) ∧
      (∃ d2 ev2 t2, TabberEvent.handleTabFocusChange dL evL "right" = .ok (d2, ev2, t2) ∧
        ev2.tabFocus = (i : Int)) := by
  subst hlen
  obtain ⟨dR, tR, hR, _⟩ := handleTabFocusChange_right d ev i hfocus hi
  obtain ⟨dL, tL, hL, _⟩ := handleTabFocusChange_left d ev i hfocus hi
  have hr := succ_mod_length i ev.tabs.length hi
  have hl := pred_mod_length i ev.tabs.length hi
  have hrlt : (i + 1) % ev.tabs.length < ev.tabs.length := Nat.mod_lt _ (by omega)
  have hllt : (i + (ev.tabs.length - 1)) % ev.tabs.length < ev.tabs.length :=
    Nat.mod_lt _ (by omega)
  obtain ⟨d2, t2, h2, _⟩ := handleTabFocusChange_left dR
    { ev with tabFocus := (((i + 1) % ev.tabs.length : Nat) : Int) } _ rfl hrlt
  obtain ⟨d3, t3, h3, _⟩ := handleTabFocusChange_right dL
    { ev with tabFocus := (((i + (ev.tabs.length - 1)) % ev.tabs.length : Nat) : Int) } _ rfl hllt
  have hrl := pred_mod_length ((i + 1) % ev.tabs.length) ev.tabs.length hrlt
  have hlr := succ_mod_length ((i + (ev.tabs.length - 1)) % ev.tabs.length) ev.tabs.length hllt
  refine ⟨dR, _, tR, dL, _, tL, hR, hL, ?_, ?_, ⟨?_, ?_⟩, ⟨?_, ?_⟩, ?_, ?_,
    ⟨d2, _, t2, h2, ?_⟩, ⟨d3, _, t3, h3, ?_⟩⟩
  · show (((i + 1) % ev.tabs.length : Nat) : Int) = _
    push_cast
    rfl
  · show (((i + (ev.tabs.length - 1)) % ev.tabs.length : Nat) : Int) = _
    have : ((i : Int) - 1 + (ev.tabs.length : Int)) = ((i + (ev.tabs.length - 1) : Nat) : Int) := by
      omega
    rw [this]
    rfl
  · show (0 : Int) ≤ (((i + 1) % ev.tabs.length : Nat) : Int)
    omega
  · show (((i + 1) % ev.tabs.length : Nat) : Int) < _
    omega
  · show (0 : Int) ≤ (((i + (ev.tabs.length - 1)) % ev.tabs.length : Nat) : Int)
    omega
  · show (((i + (ev.tabs.length - 1)) % ev.tabs.length : Nat) : Int) < _
    omega
  · intro h
    show (((i + 1) % ev.tabs.length : Nat) : Int) = 0
    rw [hr, if_pos (by omega)]
    rfl
  · intro h
    show (((i + (ev.tabs.length - 1)) % ev.tabs.length : Nat) : Int) = _
    rw [hl, if_pos h]
    omega
  · show ((((i + 1) % ev.tabs.length + (ev.tabs.length - 1)) % ev.tabs.length : Nat) : Int) = _
    rw [hrl, hr]
    split <;> split <;> omega
  · show ((((i + (ev.tabs.length - 1)) % ev.tabs.length + 1) % ev.tabs.length : Nat) : Int) = _
    rw [hlr, hl]
    split <;> split <;> omega

theorem handleTabFocusChange_wraps_witness :
    ∃ dR evR tR dL evL tL,
      TabberEvent.handleTabFocusChange [] (TabberEvent.mk 0 [Ref.tab 0 0, Ref.tab 0 1, Ref.tab 0 2]
        none 2 [] 0) "right" = .ok (dR, evR, tR) ∧
      TabberEvent.handleTabFocusChange [] (TabberEvent.mk 0 [Ref.tab 0 0, Ref.tab 0 1, Ref.tab 0 2]
        none 2 [] 0) "left" = .ok (dL, evL, tL) ∧
      evR.tabFocus = 0 := by
  obtain ⟨dR, evR, tR, dL, evL, tL, hR, hL, _, _, _, _, h0, _⟩ :=
    handleTabFocusChange_wraps [] (TabberEvent.mk 0 [Ref.tab 0 0, Ref.tab 0 1, Ref.tab 0 2]
      none 2 [] 0) 2 3 rfl rfl (by decide)
  exact ⟨dR, evR, tR, dL, evL, tL, hR, hL, h0 rfl⟩

/-! ## Building the strip -/

/-- C7: a panel whose `data-mw-tabber-title` is absent or empty is logged and
left unchanged, but `createTabs` appends the `false` that `createTabElement`
returned, so the strip gains a text node `false` for it. -/
theorem createTabs_untitled_text {σ : Type} (env : Env σ) (s : σ) (rest : List Element) :
    (TabberBuilder.createTabs env s (untitled :: rest)).children
      = StripNode.text "false" :: (TabberBuilder.createTabs env s rest).children ∧
    (TabberBuilder.createTabs env s (titled "" :: rest)).children
      = StripNode.text "false" :: (TabberBuilder.createTabs env s rest).children ∧
    (TabberBuilder.createTabs env s (untitled :: rest)).panels
      = untitled :: (TabberBuilder.createTabs env s rest).panels ∧
    (TabberBuilder.createTabs env s (untitled :: rest)).log
      = TabberBuilder.missingTitle :: (TabberBuilder.createTabs env s rest).log ∧
    (TabberBuilder.createTabs plainEnv [] [titled "A", untitled, titled "B"]).children
      = [StripNode.tab (TabberBuilder.createTab plainEnv.config "A" "A"), StripNode.text "false",
          StripNode.tab (TabberBuilder.createTab plainEnv.config "B" "B")] := by
  refine ⟨?_, ?_, ?_, ?_, by decide⟩ <;>
    simp [TabberBuilder.createTabs, TabberBuilder.createTabElement, untitled, titled, getAttr,
      appendArg]

/-- C8: on a page whose first container has no titled panel, `init` of that
container throws a `TypeError` (`setActiveTab( null )`), `main` throws with
it, and the second container is left unbuilt; a container whose first panel
alone lacks a title is built without a throw. -/
theorem init_throws_without_title :
    thrown (TabberBuilder.init plainEnv untitledFirst 0) = some Err.typeError ∧
    notLive 0 untitledFirst.doc = [0, 1] ∧
    thrown (main plainEnv untitledFirst) = some Err.typeError ∧
    (settle (main plainEnv untitledFirst)).doc[1]?
      = some (Item.tabber (container [titled "A"])) ∧
    tabsOf (settle (main plainEnv untitledFirst)).doc 1 = [] ∧
    thrown (main plainEnv (page [Item.tabber (container [untitled, titled "A"])] "")) = none := by
  decide

/-! ## The URL fragment -/

/-- C9: with the URL fragment `B`, the generated id of the second panel,
`load` asks `Hash.exists` for `#B`: nothing is activated, the first tab stays
selected and `scrollIntoView` is not called; with a helper that accepts `#B`,
`load` looks the tab `tab-#B` up and throws. -/
theorem load_fragment_not_activated :
    locationHash fragmentB.fragment = "#B" ∧
    thrown (load plainEnv fragmentB [0]) = none ∧
    attrOf (settle (load plainEnv fragmentB [0])).doc (Ref.tab 0 1) "id" = some "tab-B" ∧
    attrOf (settle (load plainEnv fragmentB [0])).doc (Ref.panel 0 1) "id" = some "B" ∧
    attrOf (settle (load plainEnv fragmentB [0])).doc (Ref.tab 0 1) "aria-selected"
      = some "false" ∧
    attrOf (settle (load plainEnv fragmentB [0])).doc (Ref.tab 0 0) "aria-selected"
      = some "true" ∧
    (settle (load plainEnv fragmentB [0])).scrolledIntoView = [] ∧
    thrown (load lenientEnv fragmentB [0]) = some Err.typeError := by
  decide

/-! ## Focus after a click -/

/-- C6: after a click on the third tab and a press of the right arrow key, the
second and the third tab both have `tabindex` `0`, while the focus index of
the controller is `1`. -/
theorem tabindex_after_click_and_arrow :
    (tabsOf clickThenArrow.doc 0).filter
        (fun r => decide (attrOf clickThenArrow.doc r "tabindex" = some "0"))
      = [Ref.tab 0 1, Ref.tab 0 2] ∧
    clickThenArrow.events.map (fun ev => ev.tabFocus) = [1] ∧
    clickThenArrow.focused = some (Ref.tab 0 1) ∧
    clickThenArrow.uncaught = [] := by
  decide

/-! ## Identifiers of a built widget -/

theorem createTabs_titled {σ : Type} (env : Env σ) (s : σ) (panels : List Element)
    (h : ∀ p ∈ panels, (getAttr "data-mw-tabber-title" p.attrs).getD "" ≠ "") :
    (TabberBuilder.tabIds env s panels).length = panels.length ∧
    (TabberBuilder.createTabs env s panels).children.length = panels.length ∧
    (TabberBuilder.createTabs env s panels).panels.length = panels.length ∧
    ∀ (j : Nat) (p : Element), panels[j]? = some p → ∃ title id,
      getAttr "data-mw-tabber-title" p.attrs = some title ∧
      (TabberBuilder.tabIds env s panels)[j]? = some id ∧
      (TabberBuilder.createTabs env s panels).children[j]?
        = some (StripNode.tab (TabberBuilder.createTab env.config title id)) ∧
      ((TabberBuilder.createTabs env s panels).panels : List Element)[j]?
        = some (TabberBuilder.setTabpanelAttributes p id) := by
  induction panels generalizing s with
  | nil => simp [TabberBuilder.tabIds, TabberBuilder.createTabs]
  | cons p rest ih =>
    have hp := h p (List.mem_cons_self _ _)
    cases hget : getAttr "data-mw-tabber-title" p.attrs with
    | none => simp [hget] at hp
    | some title =>
      have hne : title ≠ "" := by simpa [hget] using hp
      have hrest : ∀ q ∈ rest, (getAttr "data-mw-tabber-title" q.attrs).getD "" ≠ "" :=
        fun q hq => h q (List.mem_cons_of_mem _ hq)
      obtain ⟨i1, i2, i3, i4⟩ := ih
        (if env.config.parseTabName then env.hash.build s (env.util.extractTextFromHtml title)
          else env.hash.build s title).2 hrest
      simp only [TabberBuilder.createTabs, TabberBuilder.createTabElement, TabberBuilder.tabIds,
        hget, hne, if_false, List.length_cons, appendArg]
      refine ⟨by rw [i1], by rw [i2], by rw [i3], ?_⟩
      intro j q hj
      cases j with
      | zero =>
        simp only [List.getElem?_cons_zero, Option.some.injEq] at hj
        subst hj
        exact ⟨title,
          (if env.config.parseTabName then env.hash.build s (env.util.extractTextFromHtml title)
            else env.hash.build s title).1, hget, by simp, by simp, by simp⟩
      | succ j =>
        simp only [List.getElem?_cons_succ] at hj ⊢
        exact i4 j q hj

theorem getAttr_setTabpanelAttributes (p : Element) (id : String) :
    getAttr "id" (TabberBuilder.setTabpanelAttributes p id).attrs = some id ∧
    getAttr "aria-labelledby" (TabberBuilder.setTabpanelAttributes p id).attrs
      = some ("tab-" ++ id) := by
  simp [TabberBuilder.setTabpanelAttributes, setAttributes, getAttr_setAttr]

theorem createTab_attrs (config : Config) (title id : String) :
    (TabberBuilder.createTab config title id).attrs
      = [ ("class", "tabber__tab"), ("role", "tab"), ("aria-selected", "false"),
          ("aria-controls", id), ("href", "#" ++ id), ("id", "tab-" ++ id) ] := by
  cases h : config.parseTabName <;>
    simp [TabberBuilder.createTab, TabberBuilder.setTabAttributes, setAttributes, setAttr, h]

theorem append_left_cancel (p a b : String) (h : p ++ a = p ++ b) : a = b := by
  have h1 := congrArg String.data h
  simp only [String.data_append] at h1
  exact String.ext (List.append_cancel_left h1)

theorem nodup_map_append (p : String) (ids : List String) (h : ids.Nodup) :
    (ids.map fun id => p ++ id).Nodup :=
  List.Nodup.map (fun a b hab => append_left_cancel p a b hab) h

theorem find_of_nodup_ids (l : List (Ref × Element)) (id : String) (hid : id ≠ "")
    (hnd : ((l.filterMap fun p => getAttr "id" p.2.attrs).filter (fun s => s ≠ "")).Nodup)
    (r : Ref) (e : Element) (hmem : (r, e) ∈ l) (hattr : getAttr "id" e.attrs = some id) :
    (l.find? (fun p => getAttr "id" p.2.attrs = some id)).map Prod.fst = some r := by
  induction l with
  | nil => simp at hmem
  | cons x xs ih =>
    by_cases hx : getAttr "id" x.2.attrs = some id
    · simp only [List.find?_cons, hx, decide_True, Option.map_some', Option.some.injEq]
      rcases List.mem_cons.mp hmem with h | h
      · rw [← h]
      · exfalso
        have hin : id ∈ (xs.filterMap fun p => getAttr "id" p.2.attrs).filter (fun s => s ≠ "") := by
          rw [List.mem_filter]
          exact ⟨List.mem_filterMap.mpr ⟨(r, e), h, hattr⟩, by simpa using hid⟩
        simp only [List.filterMap_cons, hx] at hnd
        rw [List.filter_cons_of_pos (by simpa using hid)] at hnd
        exact (List.nodup_cons.mp hnd).1 hin
    · have hmem1 : (r, e) ∈ xs := by
        rcases List.mem_cons.mp hmem with h | h
        · exfalso; apply hx; rw [← h]; exact hattr
        · exact h
      have hnd1 : ((xs.filterMap fun p => getAttr "id" p.2.attrs).filter (fun s => s ≠ "")).Nodup := by
        cases hv : getAttr "id" x.2.attrs with
        | none => simpa [List.filterMap_cons, hv] using hnd
        | some v =>
          simp only [List.filterMap_cons, hv] at hnd
          by_cases hve : v = ""
          · rw [List.filter_cons_of_neg (by simpa using hve)] at hnd
            exact hnd
          · rw [List.filter_cons_of_pos (by simpa using hve)] at hnd
            exact (List.nodup_cons.mp hnd).2
      simp only [List.find?_cons, hx, decide_False]
      exact ih hnd1 hmem1

theorem mem_itemElems_panel (d : Document) (k0 w j : Nat) (t : Tabber) (p : Element)
    (hw : d[w]? = some (Item.tabber t)) (hp : t.panels[j]? = some p) :
    (Ref.panel (k0 + w) j, p) ∈ itemElems k0 d := by
  induction d generalizing k0 w with
  | nil => simp at hw
  | cons it rest ih =>
    cases w with
    | zero =>
      simp only [List.getElem?_cons_zero, Option.some.injEq] at hw
      subst hw
      simp only [itemElems, List.mem_append]
      right; left
      exact (mem_panelElems _ _ _ _ _).mpr ⟨j, by simp, hp⟩
    | succ w =>
      simp only [List.getElem?_cons_succ] at hw
      have h := ih (k0 + 1) w hw
      have e : k0 + (w + 1) = k0 + 1 + w := by omega
      rw [e]
      cases it with
      | other e1 => simp only [itemElems, List.mem_cons]; right; exact h
      | tabber t1 => simp only [itemElems, List.mem_append]; right; right; exact h

theorem getElementById_panel (d : Document) (w j : Nat) (t : Tabber) (p : Element) (id : String)
    (hnd : (documentIds d).Nodup) (hw : d[w]? = some (Item.tabber t))
    (hp : t.panels[j]? = some p) (hattr : getAttr "id" p.attrs = some id) (hid : id ≠ "") :
    getElementById d id = some (Ref.panel w j) := by
  unfold getElementById
  rw [if_neg hid]
  have h := mem_itemElems_panel d 0 w j t p hw hp
  rw [Nat.zero_add] at h
  exact find_of_nodup_ids _ id hid hnd _ _ h hattr

/-- C10, as stated, fails: for the titles `tab-A` and `A` the generated ids are
distinct, yet the `aria-controls` of the first tab resolves to the second tab
(whose id is `tab-A`), and after the initial `setActiveTab` no panel is
visible; and behind a heading whose id is `A`, the `aria-controls` of the tab
of a panel titled `A` resolves to the heading and `init` throws. -/
theorem first_panel_hidden_on_collision :
    TabberBuilder.tabIds plainEnv [] [titled "tab-A", titled "A"] = ["tab-A", "A"] ∧
    attrOf collidingBuilt.doc (Ref.tab 0 0) "aria-controls" = some "tab-A" ∧
    attrOf collidingBuilt.doc (Ref.panel 0 0) "id" = some "tab-A" ∧
    getElementById collidingBuilt.doc "tab-A" = some (Ref.tab 0 1) ∧
    attrOf collidingBuilt.doc (Ref.tab 0 0) "aria-selected" = some "true" ∧
    (panelsOf collidingBuilt.doc 0).filter
        (fun r => decide (attrOf collidingBuilt.doc r "aria-hidden" = some "false")) = [] ∧
    idFreeBefore collidingBuilt.doc (Ref.panel 0 0) "tab-A" = false ∧
    getElementById (settle (TabberBuilder.init plainEnv headingPage 1)).doc "A"
      = some (Ref.other 0) ∧
    idFreeBefore (settle (TabberBuilder.init plainEnv headingPage 1)).doc (Ref.panel 1 0) "A"
      = false ∧
    thrown (TabberBuilder.init plainEnv headingPage 1) = some Err.typeError := by
  decide

theorem find_of_free (l : List (Ref × Element)) (r : Ref) (e : Element) (id : String)
    (hfirst : l.find? (fun p => decide (p.1 = r)) = some (r, e))
    (hattr : getAttr "id" e.attrs = some id)
    (hfree : (l.takeWhile (fun p => decide (p.1 ≠ r))).all
      (fun p => decide (getAttr "id" p.2.attrs ≠ some id)) = true) :
    (l.find? (fun p => getAttr "id" p.2.attrs = some id)).map Prod.fst = some r := by
  induction l with
  | nil => simp at hfirst
  | cons x xs ih =>
    by_cases hx : x.1 = r
    · simp only [List.find?_cons, hx, decide_True, Option.some.injEq] at hfirst
      subst hfirst
      simp [List.find?_cons, hattr]
    · have hx1 : decide (x.1 = r) = false := by simpa using hx
      simp only [List.find?_cons, hx1] at hfirst
      have hx2 : decide (x.1 ≠ r) = true := by simpa using hx
      rw [List.takeWhile_cons, hx2] at hfree
      simp only [if_true, List.all_cons, Bool.and_eq_true, decide_eq_true_eq] at hfree
      have hx3 : decide (getAttr "id" x.2.attrs = some id) = false := by simpa using hfree.1
      simp only [List.find?_cons, hx3]
      exact ih hfirst hfree.2

theorem find_strip_panel (w c w1 j : Nat) (strip : List StripNode) :
    (stripElems w c strip).find? (fun p => decide (p.1 = Ref.panel w1 j)) = none := by
  rw [List.find?_eq_none]
  intro x hx
  obtain ⟨r, e⟩ := x
  obtain ⟨c1, h1, _⟩ := (mem_stripElems w r e c strip).mp hx
  simp [h1]

theorem find_panel_other (w j0 w1 j : Nat) (panels : List Element) (h : w ≠ w1) :
    (panelElems w j0 panels).find? (fun p => decide (p.1 = Ref.panel w1 j)) = none := by
  rw [List.find?_eq_none]
  intro x hx
  obtain ⟨r, e⟩ := x
  obtain ⟨j1, h1, _⟩ := (mem_panelElems w r e j0 panels).mp hx
  simp [h1, h]

theorem find_panel_self (w j0 j : Nat) (panels : List Element) (p : Element)
    (hp : panels[j]? = some p) :
    (panelElems w j0 panels).find? (fun q => decide (q.1 = Ref.panel w (j0 + j)))
      = some (Ref.panel w (j0 + j), p) := by
  induction panels generalizing j0 j with
  | nil => simp at hp
  | cons q rest ih =>
    cases j with
    | zero =>
      simp only [List.getElem?_cons_zero, Option.some.injEq] at hp
      subst hp
      simp [panelElems, List.find?_cons]
    | succ j =>
      simp only [List.getElem?_cons_succ] at hp
      have h := ih (j0 + 1) j hp
      have e : j0 + (j + 1) = j0 + 1 + j := by omega
      rw [e]
      have hne : ¬ j0 = j0 + 1 + j := by omega
      simp only [panelElems, List.find?_cons, Ref.panel.injEq, true_and, hne, decide_False]
      exact h

theorem find_item_panel (d : Document) (k0 w j : Nat) (t : Tabber) (p : Element)
    (hw : d[w]? = some (Item.tabber t)) (hp : t.panels[j]? = some p) :
    (itemElems k0 d).find? (fun q => decide (q.1 = Ref.panel (k0 + w) j))
      = some (Ref.panel (k0 + w) j, p) := by
  induction d generalizing k0 w with
  | nil => simp at hw
  | cons it rest ih =>
    cases w with
    | zero =>
      simp only [List.getElem?_cons_zero, Option.some.injEq] at hw
      subst hw
      have h := find_panel_self k0 0 j t.panels p hp
      rw [Nat.zero_add] at h
      simp [itemElems, List.find?_append, find_strip_panel, h]
    | succ w =>
      simp only [List.getElem?_cons_succ] at hw
      have h := ih (k0 + 1) w hw
      have e : k0 + (w + 1) = k0 + 1 + w := by omega
      rw [e]
      have hne : k0 ≠ k0 + 1 + w := by omega
      cases it with
      | other e1 =>
        simp only [itemElems, List.find?_cons]
        exact h
      | tabber t1 =>
        simp only [itemElems, List.find?_append, find_strip_panel,
          find_panel_other k0 0 (k0 + 1 + w) j t1.panels hne, Option.none_or]
        exact h

theorem getElementById_of_free (d : Document) (w j : Nat) (t : Tabber) (p : Element)
    (id : String) (hw : d[w]? = some (Item.tabber t)) (hp : t.panels[j]? = some p)
    (hattr : getAttr "id" p.attrs = some id) (hid : id ≠ "")
    (hfree : idFreeBefore d (Ref.panel w j) id = true) :
    getElementById d id = some (Ref.panel w j) := by
  unfold getElementById
  rw [if_neg hid]
  have h := find_item_panel d 0 w j t p hw hp
  rw [Nat.zero_add] at h
  exact find_of_free _ _ p id h hattr hfree

/-- C10, amended: for a container that is not built yet, has at least one
panel and whose panels all carry a non-empty title, building yields one tab
per panel in document order, in the document `init` leaves whether it returns
or throws; with `id` the identifier `Hash.build` returned for the panel (for
its title, or for the text extracted from it when `config.parseTabName` is
set), the panel has `id = id` and `aria-labelledby = 'tab-' + id`, its tab has
`aria-controls = id`, `href = '#' + id` and `id = 'tab-' + id`; distinct
identifiers give pairwise distinct tab ids; the `aria-controls` of the tab of
a panel resolves to that panel when the identifier is non-empty and no
element that precedes the panel in the document carries it; and when this
holds for the first panel, `init` returns and, once the callback of the
initial `setActiveTab` ran, the first tab is the selected one and its panel
the visible one. -/
theorem init_builds_tabs {σ : Type} (env : Env σ) (W : World σ) (w : Nat) (t : Tabber)
    (hw : W.doc[w]? = some (Item.tabber t)) (hfresh : t.strip = []) (hne : t.panels ≠ [])
    (htitled : ∀ p ∈ t.panels, (getAttr "data-mw-tabber-title" p.attrs).getD "" ≠ "") :
    ∃ t1 : Tabber,
      (TabberBuilder.built env W w t).doc[w]? = some (Item.tabber t1) ∧
      (match TabberBuilder.init env W w with
        | .ok W1 => W1.doc
        | .error (_, W1) => W1.doc) = (TabberBuilder.built env W w t).doc ∧
      t1.strip.length = t.panels.length ∧
      t1.panels.length = t.panels.length ∧
      (TabberBuilder.tabIds env W.hash t.panels).length = t.panels.length ∧
      (∀ (j : Nat) (p : Element), t.panels[j]? = some p → ∃ (title id : String) (tab : Element),
        getAttr "data-mw-tabber-title" p.attrs = some title ∧
        (TabberBuilder.tabIds env W.hash t.panels)[j]? = some id ∧
        t1.strip[j]? = some (StripNode.tab tab) ∧
        attrOf (TabberBuilder.built env W w t).doc (Ref.panel w j) "id" = some id ∧
        attrOf (TabberBuilder.built env W w t).doc (Ref.panel w j) "aria-labelledby"
          = some ("tab-" ++ id) ∧
        attrOf (TabberBuilder.built env W w t).doc (Ref.tab w j) "aria-controls" = some id ∧
        attrOf (TabberBuilder.built env W w t).doc (Ref.tab w j) "href" = some ("#" ++ id) ∧
        attrOf (TabberBuilder.built env W w t).doc (Ref.tab w j) "id" = some ("tab-" ++ id) ∧
        (id ≠ "" → idFreeBefore (TabberBuilder.built env W w t).doc (Ref.panel w j) id = true →
          getElementById (TabberBuilder.built env W w t).doc id = some (Ref.panel w j))) ∧
      ((TabberBuilder.tabIds env W.hash t.panels).Nodup →
        ((TabberBuilder.tabIds env W.hash t.panels).map fun id => "tab-" ++ id).Nodup) ∧
      (∀ id0 : String, (TabberBuilder.tabIds env W.hash t.panels)[0]? = some id0 → id0 ≠ "" →
        idFreeBefore (TabberBuilder.built env W w t).doc (Ref.panel w 0) id0 = true →
        ∃ (W1 : World σ) (f : Frame),
          TabberBuilder.init env W w = .ok W1 ∧
          W1.doc = (TabberBuilder.built env W w t).doc ∧
          W1.frames = W.frames ++ [f, TabberAction.updateHeaderOverflow env.util w t1] ∧
          (tabsOf (runFrame W1 f).doc w).filter
              (fun r => decide (attrOf (runFrame W1 f).doc r "aria-selected" = some "true"))
            = [Ref.tab w 0] ∧
          (panelsOf (runFrame W1 f).doc w).filter
              (fun r => decide (attrOf (runFrame W1 f).doc r "aria-hidden" = some "false"))
            = [Ref.panel w 0]) := by
  obtain ⟨l1, l2, l3, hidx⟩ := createTabs_titled env W.hash t.panels htitled
  have hwlt : w < W.doc.length := (List.getElem?_eq_some.mp hw).1
  have hdoc : (TabberBuilder.built env W w t).doc[w]?
      = some (Item.tabber (TabberBuilder.assemble env W.hash t)) := by
    simp [TabberBuilder.built, List.getElem?_set_self hwlt]
  have hstrip : (TabberBuilder.assemble env W.hash t).strip
      = (TabberBuilder.createTabs env W.hash t.panels).children := by
    simp [TabberBuilder.assemble, hfresh]
  have hpanels : (TabberBuilder.assemble env W.hash t).panels
      = (TabberBuilder.createTabs env W.hash t.panels).panels := rfl
  -- what holds for every panel
  have hall : ∀ (j : Nat) (p : Element), t.panels[j]? = some p → ∃ (title id : String)
      (tab : Element),
      getAttr "data-mw-tabber-title" p.attrs = some title ∧
      (TabberBuilder.tabIds env W.hash t.panels)[j]? = some id ∧
      (TabberBuilder.assemble env W.hash t).strip[j]? = some (StripNode.tab tab) ∧
      attrOf (TabberBuilder.built env W w t).doc (Ref.panel w j) "id" = some id ∧
      attrOf (TabberBuilder.built env W w t).doc (Ref.panel w j) "aria-labelledby"
        = some ("tab-" ++ id) ∧
      attrOf (TabberBuilder.built env W w t).doc (Ref.tab w j) "aria-controls" = some id ∧
      attrOf (TabberBuilder.built env W w t).doc (Ref.tab w j) "href" = some ("#" ++ id) ∧
      attrOf (TabberBuilder.built env W w t).doc (Ref.tab w j) "id" = some ("tab-" ++ id) ∧
      (id ≠ "" → idFreeBefore (TabberBuilder.built env W w t).doc (Ref.panel w j) id = true →
        getElementById (TabberBuilder.built env W w t).doc id = some (Ref.panel w j)) := by
    intro j p hj
    obtain ⟨title, id, h1, h2, h3, h4⟩ := hidx j p hj
    have hp1 : attrOf (TabberBuilder.built env W w t).doc (Ref.panel w j) "id" = some id := by
      simp [attrOf, elementAt, hdoc, hpanels, h4, getAttr_setTabpanelAttributes]
    have hp2 : attrOf (TabberBuilder.built env W w t).doc (Ref.panel w j) "aria-labelledby"
        = some ("tab-" ++ id) := by
      simp [attrOf, elementAt, hdoc, hpanels, h4, getAttr_setTabpanelAttributes]
    refine ⟨title, id, _, h1, h2, by rw [hstrip]; exact h3, hp1, hp2, ?_, ?_, ?_, ?_⟩
    · simp [attrOf, elementAt, hdoc, hstrip, h3, createTab_attrs, getAttr]
    · simp [attrOf, elementAt, hdoc, hstrip, h3, createTab_attrs, getAttr]
    · simp [attrOf, elementAt, hdoc, hstrip, h3, createTab_attrs, getAttr]
    · intro hid hfree
      exact getElementById_of_free _ w j _ _ id hdoc (by rw [hpanels]; exact h4)
        (getAttr_setTabpanelAttributes p id).1 hid hfree
  -- the first panel and the first tab
  obtain ⟨p0, rest, hcons⟩ := List.exists_cons_of_ne_nil hne
  have hp0 : t.panels[0]? = some p0 := by rw [hcons]; simp
  obtain ⟨title0, id0, tab0, _, hi0, hs0, _, _, hc0, _, _, hres0⟩ := hall 0 p0 hp0
  have hfirst : TabberBuilder.firstTab env W w t = some (Ref.tab w 0) := by
    rw [hstrip] at hs0
    unfold TabberBuilder.firstTab
    cases hch : (TabberBuilder.createTabs env W.hash t.panels).children with
    | nil => simp [hch] at hs0
    | cons x xs =>
      simp only [hch, List.getElem?_cons_zero, Option.some.injEq] at hs0
      subst hs0
      simp [hfresh, hch, stripElems]
  have hleft : (match TabberBuilder.init env W w with
      | .ok W1 => W1.doc
      | .error (_, W1) => W1.doc) = (TabberBuilder.built env W w t).doc := by
    simp only [TabberBuilder.init, hw]
    cases TabberAction.setActiveTab (TabberBuilder.built env W w t).doc
      (TabberBuilder.firstTab env W w t) <;> rfl
  refine ⟨TabberBuilder.assemble env W.hash t, hdoc, hleft, ?_, ?_, l1, hall, ?_, ?_⟩
  · rw [hstrip]; exact l2
  · rw [hpanels]; exact l3
  · exact nodup_map_append "tab-" _
  · intro id1 hid1 hne1 hfree1
    have hsame : id1 = id0 := by
      rw [hi0] at hid1
      exact (Option.some.inj hid1).symm
    subst hsame
    have hset := setActiveTab_ok (TabberBuilder.built env W w t).doc (Ref.tab w 0) w 0 _ hdoc
      (by rw [hc0]; exact hres0 hne1 hfree1)
    have htab0 : Ref.tab w 0 ∈ tabsOf (TabberBuilder.built env W w t).doc w := by
      simp only [tabsOf, hdoc]
      exact (mem_stripRefs w _ 0 _).mpr ⟨0, tab0, rfl, hs0⟩
    have hpan0 : Ref.panel w 0 ∈ panelsOf (TabberBuilder.built env W w t).doc w := by
      simp only [panelsOf, hdoc]
      obtain ⟨_, id, _, _, _, h4⟩ := hidx 0 p0 hp0
      exact (mem_panelRefs w _ 0 _).mpr ⟨0, _, rfl, by rw [hpanels]; exact h4⟩
    obtain ⟨_, _, e3, _, _, e6, _⟩ :=
      activation_exactly_one (TabberBuilder.built env W w t).doc w _ _ htab0 hpan0
    refine ⟨{ TabberBuilder.built env W w t with
        frames := (TabberBuilder.built env W w t).frames ++
          [Frame.activeTab
            ((panelsOf (TabberBuilder.built env W w t).doc w).map (panelUpdate (Ref.panel w 0)))
            ((tabsOf (TabberBuilder.built env W w t).doc w).map (tabUpdate (Ref.tab w 0)))
            (Ref.tab w 0) (Ref.panel w 0),
           TabberAction.updateHeaderOverflow env.util w (TabberBuilder.assemble env W.hash t)]
        timers := (TabberBuilder.built env W w t).timers ++
          [Timer.startEvents w t.strip.length
            (TabberBuilder.createTabs env W.hash t.panels).children.length] },
      Frame.activeTab
        ((panelsOf (TabberBuilder.built env W w t).doc w).map (panelUpdate (Ref.panel w 0)))
        ((tabsOf (TabberBuilder.built env W w t).doc w).map (tabUpdate (Ref.tab w 0)))
        (Ref.tab w 0) (Ref.panel w 0),
      ?_, rfl, rfl, e3, e6⟩
    simp only [TabberBuilder.init, hw, hfirst, hset]

theorem init_builds_tabs_witness :
    ∃ (W1 : World (List String)) (f : Frame),
      TabberBuilder.init plainEnv abcPage 0 = .ok W1 ∧
      (tabsOf (runFrame W1 f).doc 0).filter
          (fun r => decide (attrOf (runFrame W1 f).doc r "aria-selected" = some "true"))
        = [Ref.tab 0 0] ∧
      (panelsOf (runFrame W1 f).doc 0).filter
          (fun r => decide (attrOf (runFrame W1 f).doc r "aria-hidden" = some "false"))
        = [Ref.panel 0 0] := by
  obtain ⟨t1, _, _, _, _, _, _, _, hsel⟩ :=
    init_builds_tabs plainEnv abcPage 0 (container [titled "A", titled "B", titled "C"])
      (by decide) (by decide) (by decide) (by decide)
  obtain ⟨W1, f, h1, _, _, h4, h5⟩ := hsel "A" (by decide) (by decide) (by decide)
  exact ⟨W1, f, h1, h4, h5⟩

/-! ## Listeners of the controller -/

theorem resume_listeners {σ : Type} (env : Env σ) (ev : TabberEvent)
    (h : ev.listeners = [] ∨ ev.listeners = TabberEvent.handlers) :
    (TabberEvent.resume env ev).listeners = TabberEvent.handlers := by
  rcases h with h | h <;>
  · show TabberEvent.handlers.foldl (fun ls l => addEventListener l ls) ev.listeners = _
    rw [h]
    decide

theorem pause_listeners (ev : TabberEvent)
    (h : ev.listeners = [] ∨ ev.listeners = TabberEvent.handlers) :
    (TabberEvent.pause ev).listeners = [] := by
  rcases h with h | h <;>
  · show TabberEvent.handlers.foldl (fun ls l => removeEventListener l ls) ev.listeners = _
    rw [h]
    decide

theorem mem_addEventListener (l x : Listener) (ls : List Listener) :
    x ∈ addEventListener l ls ↔ x ∈ ls ∨ x = l := by
  unfold addEventListener
  split
  · constructor
    · intro h; exact Or.inl h
    · rintro (h | h)
      · exact h
      · subst h; assumption
  · simp

theorem mem_removeEventListener (l x : Listener) (ls : List Listener) :
    x ∈ removeEventListener l ls ↔ x ∈ ls ∧ x ≠ l := by
  simp [removeEventListener]

theorem resume_attached {σ : Type} (env : Env σ) (ev : TabberEvent) :
    ∀ l ∈ TabberEvent.handlers, l ∈ (TabberEvent.resume env ev).listeners := by
  intro l hl
  show l ∈ TabberEvent.handlers.foldl (fun ls l => addEventListener l ls) ev.listeners
  simp only [TabberEvent.handlers, List.foldl_cons, List.foldl_nil, mem_addEventListener,
    List.mem_cons, List.mem_singleton, List.not_mem_nil, or_false] at hl ⊢
  rcases hl with h | h | h
  · exact Or.inl (Or.inl (Or.inr h))
  · exact Or.inl (Or.inr h)
  · exact Or.inr h

theorem pause_detached (ev : TabberEvent) :
    ∀ l ∈ TabberEvent.handlers, l ∉ (TabberEvent.pause ev).listeners := by
  intro l hl hmem
  have hmem1 : l ∈ TabberEvent.handlers.foldl (fun ls l => removeEventListener l ls)
      ev.listeners := hmem
  simp only [TabberEvent.handlers, List.foldl_cons, List.foldl_nil, mem_removeEventListener,
    List.mem_cons, List.mem_singleton, List.not_mem_nil, or_false] at hl hmem1
  obtain ⟨⟨⟨_, n1⟩, n2⟩, n3⟩ := hmem1
  rcases hl with h | h | h
  · exact n1 h
  · exact n2 h
  · exact n3 h

theorem calls_follow_last {σ : Type} (env : Env σ) (ev : TabberEvent) (cs : List LifecycleCall) :
    (cs.getLast? = some LifecycleCall.resume →
      ∀ l ∈ TabberEvent.handlers, l ∈ (TabberEvent.calls env ev cs).listeners) ∧
    (cs.getLast? = some LifecycleCall.pause →
      ∀ l ∈ TabberEvent.handlers, l ∉ (TabberEvent.calls env ev cs).listeners) := by
  constructor
  · intro h
    obtain ⟨ys, rfl⟩ := List.getLast?_eq_some_iff.mp h
    simp only [TabberEvent.calls, List.foldl_append, List.foldl_cons, List.foldl_nil]
    exact resume_attached env _
  · intro h
    obtain ⟨ys, rfl⟩ := List.getLast?_eq_some_iff.mp h
    simp only [TabberEvent.calls, List.foldl_append, List.foldl_cons, List.foldl_nil]
    exact pause_detached _

theorem observerCallback_listeners {σ : Type} (env : Env σ) (entries : List Bool)
    (ev : TabberEvent) :
    (entries.getLast? = some true →
      ∀ l ∈ TabberEvent.handlers, l ∈ (TabberEvent.observerCallback env entries ev).listeners) ∧
    (entries.getLast? = some false →
      ∀ l ∈ TabberEvent.handlers, l ∉ (TabberEvent.observerCallback env entries ev).listeners) ∧
    (entries.getLast? = none →
      (TabberEvent.observerCallback env entries ev).listeners = ev.listeners) ∧
    ((ev.listeners = [] ∨ ev.listeners = TabberEvent.handlers) →
      ((TabberEvent.observerCallback env entries ev).listeners = [] ∨
        (TabberEvent.observerCallback env entries ev).listeners = TabberEvent.handlers)) := by
  refine ⟨?_, ?_, ?_, ?_⟩
  · intro h
    obtain ⟨ys, rfl⟩ := List.getLast?_eq_some_iff.mp h
    simp only [TabberEvent.observerCallback, List.foldl_append, List.foldl_cons, List.foldl_nil,
      TabberEvent.onIntersection, if_true]
    exact resume_attached env _
  · intro h
    obtain ⟨ys, rfl⟩ := List.getLast?_eq_some_iff.mp h
    simp only [TabberEvent.observerCallback, List.foldl_append, List.foldl_cons, List.foldl_nil,
      TabberEvent.onIntersection]
    exact pause_detached _
  · intro h
    cases entries with
    | nil => rfl
    | cons b bs => simp [List.getLast?_eq_none_iff] at h
  · intro h
    induction entries generalizing ev with
    | nil => exact h
    | cons b bs ih =>
      simp only [TabberEvent.observerCallback, List.foldl_cons] at ih ⊢
      apply ih
      cases b
      · left; simpa [TabberEvent.onIntersection] using pause_listeners ev h
      · right; simpa [TabberEvent.onIntersection] using resume_listeners env ev h

theorem set_keeps_listeners (evs : List TabberEvent) (i k : Nat) (ev evk x : TabberEvent)
    (hev : evs[i]? = some ev) (hk : evs[k]? = some evk) (hx : x.listeners = evk.listeners) :
    ∃ ev1, (evs.set k x)[i]? = some ev1 ∧ ev1.listeners = ev.listeners := by
  by_cases h : k = i
  · subst h
    rw [hk] at hev
    cases hev
    have hlt : k < evs.length := (List.getElem?_eq_some.mp hk).1
    exact ⟨x, List.getElem?_set_self hlt, hx⟩
  · exact ⟨ev, by rw [List.getElem?_set_ne h]; exact hev, rfl⟩

theorem handleTabFocusChange_listeners (d d1 : Document) (ev ev1 : TabberEvent) (dir : String)
    (tab : Ref) (h : TabberEvent.handleTabFocusChange d ev dir = .ok (d1, ev1, tab)) :
    ev1.listeners = ev.listeners := by
  unfold TabberEvent.handleTabFocusChange at h
  cases h1 : nodeAt ev.tabs ev.tabFocus with
  | none => simp [h1] at h
  | some old =>
    cases h2 : nodeAt ev.tabs (TabberEvent.nextFocus dir ev.tabFocus ev.tabs.length) with
    | none => simp [h1, h2] at h
    | some new =>
      simp only [h1, h2, Except.ok.injEq, Prod.mk.injEq] at h
      rw [← h.2.1]

theorem defaultAction_keeps {σ : Type} (W : World σ) (e : DomEvent) :
    (defaultAction W e).doc = W.doc ∧ (defaultAction W e).events = W.events ∧
    (defaultAction W e).frames = W.frames ∧ (defaultAction W e).timers = W.timers ∧
    (defaultAction W e).focused = W.focused ∧ (defaultAction W e).uncaught = W.uncaught ∧
    (defaultAction W e).hash = W.hash := by
  cases e with
  | click target =>
    cases target with
    | tab tab =>
      simp only [defaultAction]
      split <;> exact ⟨rfl, rfl, rfl, rfl, rfl, rfl, rfl⟩
    | prevButton => exact ⟨rfl, rfl, rfl, rfl, rfl, rfl, rfl⟩
    | nextButton => exact ⟨rfl, rfl, rfl, rfl, rfl, rfl, rfl⟩
    | elsewhere => exact ⟨rfl, rfl, rfl, rfl, rfl, rfl, rfl⟩
  | scroll => exact ⟨rfl, rfl, rfl, rfl, rfl, rfl, rfl⟩
  | keydown key => exact ⟨rfl, rfl, rfl, rfl, rfl, rfl, rfl⟩

theorem onHeaderClick_keeps {σ : Type} (env : Env σ) (W : World σ) (i k : Nat)
    (ev : TabberEvent) (target : ClickTarget) (hev : W.events[i]? = some ev) :
    ∃ ev1, (TabberEvent.onHeaderClick env W k target).events[i]? = some ev1 ∧
      ev1.listeners = ev.listeners := by
  unfold TabberEvent.onHeaderClick
  cases hk : W.events[k]? with
  | none => exact ⟨ev, hev, rfl⟩
  | some evk =>
    cases target with
    | tab tab =>
      obtain ⟨ev1, h1, h2⟩ := set_keeps_listeners W.events i k ev evk
        { evk with activeTab := some tab } hev hk rfl
      refine ⟨ev1, ?_, h2⟩
      simp only []
      split <;> split <;> exact h1
    | prevButton =>
      refine ⟨ev, ?_, rfl⟩
      simp only []
      split <;> exact hev
    | nextButton =>
      refine ⟨ev, ?_, rfl⟩
      simp only []
      split <;> exact hev
    | elsewhere => exact ⟨ev, hev, rfl⟩

theorem onTablistKeydown_keeps {σ : Type} (W : World σ) (i k : Nat)
    (ev : TabberEvent) (key : String) (hev : W.events[i]? = some ev) :
    ∃ ev1, (TabberEvent.onTablistKeydown W k key).events[i]? = some ev1 ∧
      ev1.listeners = ev.listeners := by
  unfold TabberEvent.onTablistKeydown
  cases hk : W.events[k]? with
  | none => exact ⟨ev, hev, rfl⟩
  | some evk =>
    simp only []
    split
    · exact ⟨ev, hev, rfl⟩
    · next dir _ =>
      cases hh : TabberEvent.handleTabFocusChange W.doc evk dir with
      | error e => exact ⟨ev, hev, rfl⟩
      | ok r =>
        obtain ⟨d1, evk1, tab⟩ := r
        exact set_keeps_listeners W.events i k ev evk evk1 hev hk
          (handleTabFocusChange_listeners _ _ _ _ _ _ hh)

theorem dispatch_keeps {σ : Type} (env : Env σ) (W : World σ) (i k : Nat)
    (ev : TabberEvent) (e : DomEvent) (hev : W.events[i]? = some ev) :
    ∃ ev1, (TabberEvent.dispatch env W k e).events[i]? = some ev1 ∧
      ev1.listeners = ev.listeners := by
  cases e with
  | click target =>
    unfold TabberEvent.dispatch
    cases hk : W.events[k]? with
    | none => exact ⟨ev, by rw [(defaultAction_keeps W _).2.1]; exact hev, rfl⟩
    | some evk =>
      simp only []
      split
      · exact onHeaderClick_keeps env W i k ev target hev
      · exact ⟨ev, by rw [(defaultAction_keeps W _).2.1]; exact hev, rfl⟩
  | scroll =>
    unfold TabberEvent.dispatch
    cases hk : W.events[k]? with
    | none => exact ⟨ev, hev, rfl⟩
    | some evk =>
      simp only []
      split
      · refine ⟨ev, ?_, rfl⟩
        simp only [TabberEvent.onTablistScroll, hk]
        exact hev
      · exact ⟨ev, hev, rfl⟩
  | keydown key =>
    unfold TabberEvent.dispatch
    cases hk : W.events[k]? with
    | none => exact ⟨ev, hev, rfl⟩
    | some evk =>
      simp only []
      split
      · exact onTablistKeydown_keeps W i k ev key hev
      · exact ⟨ev, hev, rfl⟩

theorem runFrame_events {σ : Type} (W : World σ) (f : Frame) : (runFrame W f).events = W.events := by
  cases f with
  | scrollIntoView r => cases r <;> rfl
  | _ => rfl

theorem runFrames_events {σ : Type} (W : World σ) : (runFrames W).events = W.events := by
  unfold runFrames
  have h : ∀ (fs : List Frame) (V : World σ), (fs.foldl runFrame V).events = V.events := by
    intro fs
    induction fs with
    | nil => intro V; rfl
    | cons f fs ih => intro V; rw [List.foldl_cons, ih, runFrame_events]
  rw [h]

theorem runTimer_keeps {σ : Type} (env : Env σ) (W : World σ) (t : Timer) (i : Nat)
    (ev : TabberEvent) (hev : W.events[i]? = some ev) :
    (runTimer env W t).events[i]? = some ev := by
  cases t with
  | startEvents w base len =>
    have hlt : i < W.events.length := (List.getElem?_eq_some.mp hev).1
    simp only [runTimer]
    rw [List.getElem?_append_left hlt]
    exact hev
  | overflow w =>
    simp only [runTimer]
    split <;> exact hev
  | toggleAnimation b => exact hev

theorem runTimers_keeps {σ : Type} (env : Env σ) (W : World σ) (i : Nat)
    (ev : TabberEvent) (hev : W.events[i]? = some ev) :
    (runTimers env W).events[i]? = some ev := by
  unfold runTimers
  have h : ∀ (ts : List Timer) (V : World σ), V.events[i]? = some ev →
      (ts.foldl (runTimer env) V).events[i]? = some ev := by
    intro ts
    induction ts with
    | nil => intro V hV; exact hV
    | cons t ts ih => intro V hV; rw [List.foldl_cons]; exact ih _ (runTimer_keeps env V t i ev hV)
  exact h _ _ hev

theorem pageStep_listeners {σ : Type} (env : Env σ) (W : World σ) (s : PageStep) (i : Nat)
    (ev : TabberEvent) (hev : W.events[i]? = some ev) :
    ∃ ev1, (pageStep env W s).events[i]? = some ev1 ∧
      (stepEntry i s = some true → ∀ l ∈ TabberEvent.handlers, l ∈ ev1.listeners) ∧
      (stepEntry i s = some false → ∀ l ∈ TabberEvent.handlers, l ∉ ev1.listeners) ∧
      (stepEntry i s = none → ev1.listeners = ev.listeners) ∧
      ((ev.listeners = [] ∨ ev.listeners = TabberEvent.handlers) →
        (ev1.listeners = [] ∨ ev1.listeners = TabberEvent.handlers)) := by
  cases s with
  | intersection k entries =>
    by_cases hk : k = i
    · subst hk
      obtain ⟨o1, o2, o3, o4⟩ := observerCallback_listeners env entries ev
      have hlt : k < W.events.length := (List.getElem?_eq_some.mp hev).1
      refine ⟨TabberEvent.observerCallback env entries ev, ?_, ?_, ?_, ?_, o4⟩
      · simp only [pageStep, hev]
        exact List.getElem?_set_self hlt
      · intro h; exact o1 (by simpa [stepEntry] using h)
      · intro h; exact o2 (by simpa [stepEntry] using h)
      · intro h; exact o3 (by simpa [stepEntry] using h)
    · refine ⟨ev, ?_, ?_, ?_, fun _ => rfl, fun h => h⟩
      · simp only [pageStep]
        split
        · exact hev
        · simp only []
          rw [List.getElem?_set_ne hk]
          exact hev
      · intro h; simp [stepEntry, hk] at h
      · intro h; simp [stepEntry, hk] at h
  | event k e =>
    obtain ⟨ev1, h1, h2⟩ := dispatch_keeps env W i k ev e hev
    refine ⟨ev1, h1, ?_, ?_, fun _ => h2, fun h => by rw [h2]; exact h⟩
    · intro h; simp [stepEntry] at h
    · intro h; simp [stepEntry] at h
  | frames =>
    refine ⟨ev, by simp only [pageStep, runFrames_events]; exact hev, ?_, ?_, fun _ => rfl,
      fun h => h⟩
    · intro h; simp [stepEntry] at h
    · intro h; simp [stepEntry] at h
  | timers =>
    refine ⟨ev, runTimers_keeps env W i ev hev, ?_, ?_, fun _ => rfl, fun h => h⟩
    · intro h; simp [stepEntry] at h
    · intro h; simp [stepEntry] at h

theorem pageRun_listeners {σ : Type} (env : Env σ) (steps : List PageStep) (W : World σ)
    (i : Nat) (ev : TabberEvent) (hev : W.events[i]? = some ev) :
    ∃ ev1, (pageRun env W steps).events[i]? = some ev1 ∧
      (lastEntry i steps = some true → ∀ l ∈ TabberEvent.handlers, l ∈ ev1.listeners) ∧
      (lastEntry i steps = some false → ∀ l ∈ TabberEvent.handlers, l ∉ ev1.listeners) ∧
      (lastEntry i steps = none → ev1.listeners = ev.listeners) ∧
      ((ev.listeners = [] ∨ ev.listeners = TabberEvent.handlers) →
        (ev1.listeners = [] ∨ ev1.listeners = TabberEvent.handlers)) := by
  induction steps generalizing W ev with
  | nil => exact ⟨ev, hev, by simp [lastEntry], by simp [lastEntry], fun _ => rfl, fun h => h⟩
  | cons s rest ih =>
    obtain ⟨ev0, s0, s1, s2, s3, s4⟩ := pageStep_listeners env W s i ev hev
    obtain ⟨ev1, r0, r1, r2, r3, r4⟩ := ih (pageStep env W s) ev0 s0
    refine ⟨ev1, by simpa [pageRun] using r0, ?_, ?_, ?_, fun h => r4 (s4 h)⟩
    · intro h
      simp only [lastEntry] at h
      cases hl : lastEntry i rest with
      | some b => rw [hl] at h; exact r1 (by rw [hl]; exact h)
      | none =>
        rw [hl] at h
        rw [r3 hl]
        exact s1 h
    · intro h
      simp only [lastEntry] at h
      cases hl : lastEntry i rest with
      | some b => rw [hl] at h; exact r2 (by rw [hl]; exact h)
      | none =>
        rw [hl] at h
        rw [r3 hl]
        exact s2 h
    · intro h
      simp only [lastEntry] at h
      cases hl : lastEntry i rest with
      | some b => rw [hl] at h; cases h
      | none =>
        rw [hl] at h
        rw [r3 hl]
        exact s3 h

theorem dispatch_detached {σ : Type} (env : Env σ) (W : World σ) (i : Nat) (ev : TabberEvent)
    (hev : W.events[i]? = some ev)
    (hl : ∀ l ∈ TabberEvent.handlers, l ∉ ev.listeners) (e : DomEvent) :
    TabberEvent.dispatch env W i e = defaultAction W e := by
  have h1 : ({ target := "header", type := "click", handler := "onHeaderClick" } : Listener)
      ∉ ev.listeners := hl _ (by decide)
  have h2 : ({ target := "tablist", type := "scroll", handler := "onTablistScroll" } : Listener)
      ∉ ev.listeners := hl _ (by decide)
  have h3 : ({ target := "tablist", type := "keydown", handler := "onTablistKeydown" } : Listener)
      ∉ ev.listeners := hl _ (by decide)
  cases e with
  | click target => simp only [TabberEvent.dispatch, hev, h1, if_false]
  | scroll => simp only [TabberEvent.dispatch, hev, h2, if_false, defaultAction]
  | keydown key => simp only [TabberEvent.dispatch, hev, h3, if_false, defaultAction]

theorem dispatch_attached {σ : Type} (env : Env σ) (W : World σ) (i : Nat) (ev : TabberEvent)
    (hev : W.events[i]? = some ev)
    (hl : ∀ l ∈ TabberEvent.handlers, l ∈ ev.listeners) :
    (∀ target, TabberEvent.dispatch env W i (DomEvent.click target)
      = TabberEvent.onHeaderClick env W i target) ∧
    TabberEvent.dispatch env W i DomEvent.scroll = TabberEvent.onTablistScroll W i ∧
    (∀ key, TabberEvent.dispatch env W i (DomEvent.keydown key)
      = TabberEvent.onTablistKeydown W i key) := by
  have h1 : ({ target := "header", type := "click", handler := "onHeaderClick" } : Listener)
      ∈ ev.listeners := hl _ (by decide)
  have h2 : ({ target := "tablist", type := "scroll", handler := "onTablistScroll" } : Listener)
      ∈ ev.listeners := hl _ (by decide)
  have h3 : ({ target := "tablist", type := "keydown", handler := "onTablistKeydown" } : Listener)
      ∈ ev.listeners := hl _ (by decide)
  refine ⟨fun target => ?_, ?_, fun key => ?_⟩
  · simp only [TabberEvent.dispatch, hev, h1, if_true]
  · simp only [TabberEvent.dispatch, hev, h2, if_true]
  · simp only [TabberEvent.dispatch, hev, h3, if_true]

/-- C11: with the attached listeners as a list of (target, event type,
handler) triples, none is attached right after construction and `init`
attaches exactly the three handlers; after any sequence of
`resume()`/`pause()` calls on any controller the header click, strip scroll
and strip keydown listeners are all attached if the last call was `resume()`
and all detached if it was `pause()`; and on a page where the intersection
observer reports entries while events are handled and frame and timer
callbacks run, in any order, the three listeners of a controller are all
attached if the last entry its observer reported was intersecting, all
detached if it was not, and as before if it reported none, the attached
listeners staying exactly the three handlers or none. While they are detached
a click, scroll or keydown event runs no handler: it leaves the document, the
controllers and the pending callbacks as they are, and only the browser's
default navigation of a click on a tab anchor takes place; once they are
attached again each of the three events reaches its handler. -/
theorem listeners_follow_last_call {σ : Type} (env : Env σ) (W : World σ) (i : Nat)
    (ev : TabberEvent) (steps : List PageStep) (hev : W.events[i]? = some ev) :
    (∀ (d : Document) (w base len : Nat),
      (TabberEvent.new d w base len).listeners = [] ∧
      (TabberEvent.init env (TabberEvent.new d w base len)).listeners
        = TabberEvent.handlers) ∧
    (∀ (ev0 : TabberEvent) (cs : List LifecycleCall),
      (cs.getLast? = some LifecycleCall.resume →
        ∀ l ∈ TabberEvent.handlers, l ∈ (TabberEvent.calls env ev0 cs).listeners) ∧
      (cs.getLast? = some LifecycleCall.pause →
        ∀ l ∈ TabberEvent.handlers, l ∉ (TabberEvent.calls env ev0 cs).listeners)) ∧
    ∃ ev1 : TabberEvent,
      (pageRun env W steps).events[i]? = some ev1 ∧
      (lastEntry i steps = some true → ∀ l ∈ TabberEvent.handlers, l ∈ ev1.listeners) ∧
      (lastEntry i steps = some false → ∀ l ∈ TabberEvent.handlers, l ∉ ev1.listeners) ∧
      (lastEntry i steps = none → ev1.listeners = ev.listeners) ∧
      ((ev.listeners = [] ∨ ev.listeners = TabberEvent.handlers) →
        (ev1.listeners = [] ∨ ev1.listeners = TabberEvent.handlers)) ∧
      ((∀ l ∈ TabberEvent.handlers, l ∉ ev1.listeners) → ∀ e : DomEvent,
        TabberEvent.dispatch env (pageRun env W steps) i e
          = defaultAction (pageRun env W steps) e ∧
        (TabberEvent.dispatch env (pageRun env W steps) i e).doc = (pageRun env W steps).doc ∧
        (TabberEvent.dispatch env (pageRun env W steps) i e).events
          = (pageRun env W steps).events ∧
        (TabberEvent.dispatch env (pageRun env W steps) i e).frames
          = (pageRun env W steps).frames ∧
        (TabberEvent.dispatch env (pageRun env W steps) i e).timers
          = (pageRun env W steps).timers ∧
        (TabberEvent.dispatch env (pageRun env W steps) i e).focused
          = (pageRun env W steps).focused) ∧
      ((∀ l ∈ TabberEvent.handlers, l ∈ ev1.listeners) →
        (∀ target, TabberEvent.dispatch env (pageRun env W steps) i (DomEvent.click target)
          = TabberEvent.onHeaderClick env (pageRun env W steps) i target) ∧
        TabberEvent.dispatch env (pageRun env W steps) i DomEvent.scroll
          = TabberEvent.onTablistScroll (pageRun env W steps) i ∧
        (∀ key, TabberEvent.dispatch env (pageRun env W steps) i (DomEvent.keydown key)
          = TabberEvent.onTablistKeydown (pageRun env W steps) i key)) := by
  refine ⟨fun d w base len => ⟨rfl, resume_listeners env _ (Or.inl rfl)⟩,
    fun ev0 cs => calls_follow_last env ev0 cs, ?_⟩
  obtain ⟨ev1, r0, r1, r2, r3, r4⟩ := pageRun_listeners env steps W i ev hev
  refine ⟨ev1, r0, r1, r2, r3, r4, ?_, ?_⟩
  · intro hdet e
    have hd := dispatch_detached env (pageRun env W steps) i ev1 r0 hdet e
    obtain ⟨k1, k2, k3, k4, k5, _⟩ := defaultAction_keeps (pageRun env W steps) e
    rw [hd]
    exact ⟨rfl, k1, k2, k3, k4, k5⟩
  · intro hatt
    exact dispatch_attached env (pageRun env W steps) i ev1 r0 hatt

theorem listeners_follow_last_call_witness :
    ∃ ev1 : TabberEvent,
      (pageRun plainEnv attachedPage leavingSteps).events[0]? = some ev1 ∧
      (∀ l ∈ TabberEvent.handlers, l ∉ ev1.listeners) ∧
      ∀ e : DomEvent,
        TabberEvent.dispatch plainEnv (pageRun plainEnv attachedPage leavingSteps) 0 e
          = defaultAction (pageRun plainEnv attachedPage leavingSteps) e := by
  obtain ⟨_, _, ev1, h0, _, h2, _, _, h5, _⟩ :=
    listeners_follow_last_call plainEnv attachedPage 0
      (TabberEvent.init plainEnv (TabberEvent.new abcBuilt.doc 0 0 3)) leavingSteps
      (by decide)
  exact ⟨ev1, h0, h2 (by decide), fun e => (h5 (h2 (by decide)) e).1⟩

/-! ## Scans -/

/-- C12: `main` calls `load` only when a container without `tabber--live`
exists, and a scan after the 10 ms callback skips the built container; but
the class is added only in that callback, so a second `main` before it finds
the container again and `init` runs on it a second time: the header holds two
tabs with the id `tab-A` for the one panel and two 10 ms callbacks are
pending. -/
theorem main_rebuilds_before_timer :
    (∀ W : World (List String), main plainEnv W
      = if (notLive 0 W.doc).length = 0 then .ok W else load plainEnv W (notLive 0 W.doc)) ∧
    notLive 0 singlePage.doc = [0] ∧
    thrown (main plainEnv singlePage) = none ∧
    tabsOf (settle (main plainEnv singlePage)).doc 0 = [Ref.tab 0 0] ∧
    notLive 0 (settle (main plainEnv singlePage)).doc = [0] ∧
    thrown (main plainEnv (settle (main plainEnv singlePage))) = none ∧
    tabsOf scannedTwice.doc 0 = [Ref.tab 0 0, Ref.tab 0 1] ∧
    (tabsOf scannedTwice.doc 0).map (fun r => attrOf scannedTwice.doc r "id")
      = [some "tab-A", some "tab-A"] ∧
    scannedTwice.timers = [Timer.startEvents 0 0 1, Timer.toggleAnimation true,
      Timer.startEvents 0 1 1, Timer.toggleAnimation true] ∧
    notLive 0 (runTimers plainEnv (settle (main plainEnv singlePage))).doc = [] ∧
    tabsOf scannedAfterTimers.doc 0 = [Ref.tab 0 0] := by
  refine ⟨fun W => rfl, ?_⟩
  decide

end TabberNeue
